import Mathlib

/-!
Verification of the Z-logo rasterizer (scripts/logo_image.py).

The source renders a stylized Z glyph with exact arithmetic over the field
extension of the rationals by the square root of two: the only irrational
quantity in the whole program is the constant standard_distance, whose value
is one quarter of the square root of two.  We therefore embed the program in
the computable linear ordered field Qsqrt2 of numbers of the form a + b * sqrt 2
with a b rational, so every concrete pixel evaluation is decidable.
-/

namespace LogoImage

/-- Qsqrt2 represents the real number a + b * sqrt 2 with a and b rational. -/
structure Qsqrt2 where
  a : ℚ
  b : ℚ
  deriving DecidableEq, Repr

namespace Qsqrt2

@[ext] theorem ext2 {x y : Qsqrt2} (ha : x.a = y.a) (hb : x.b = y.b) : x = y := by
  cases x; cases y; simp_all

/-- ofQ embeds the rationals. -/
def ofQ (q : ℚ) : Qsqrt2 := ⟨q, 0⟩

instance : Zero Qsqrt2 := ⟨⟨0, 0⟩⟩
instance : One Qsqrt2 := ⟨⟨1, 0⟩⟩
instance : Add Qsqrt2 := ⟨fun x y => ⟨x.a + y.a, x.b + y.b⟩⟩
instance : Neg Qsqrt2 := ⟨fun x => ⟨-x.a, -x.b⟩⟩
instance : Mul Qsqrt2 := ⟨fun x y => ⟨x.a * y.a + 2 * (x.b * y.b), x.a * y.b + x.b * y.a⟩⟩
instance : Inv Qsqrt2 :=
  ⟨fun x => ⟨x.a / (x.a ^ 2 - 2 * x.b ^ 2), -x.b / (x.a ^ 2 - 2 * x.b ^ 2)⟩⟩

@[simp] theorem zero_a : (0 : Qsqrt2).a = 0 := rfl
@[simp] theorem zero_b : (0 : Qsqrt2).b = 0 := rfl
@[simp] theorem one_a : (1 : Qsqrt2).a = 1 := rfl
@[simp] theorem one_b : (1 : Qsqrt2).b = 0 := rfl
@[simp] theorem add_a (x y : Qsqrt2) : (x + y).a = x.a + y.a := rfl
@[simp] theorem add_b (x y : Qsqrt2) : (x + y).b = x.b + y.b := rfl
@[simp] theorem neg_a (x : Qsqrt2) : (-x).a = -x.a := rfl
@[simp] theorem neg_b (x : Qsqrt2) : (-x).b = -x.b := rfl
@[simp] theorem mul_a (x y : Qsqrt2) : (x * y).a = x.a * y.a + 2 * (x.b * y.b) := rfl
@[simp] theorem mul_b (x y : Qsqrt2) : (x * y).b = x.a * y.b + x.b * y.a := rfl
@[simp] theorem inv_a (x : Qsqrt2) : (x⁻¹).a = x.a / (x.a ^ 2 - 2 * x.b ^ 2) := rfl
@[simp] theorem inv_b (x : Qsqrt2) : (x⁻¹).b = -x.b / (x.a ^ 2 - 2 * x.b ^ 2) := rfl
@[simp] theorem ofQ_a (q : ℚ) : (ofQ q).a = q := rfl
@[simp] theorem ofQ_b (q : ℚ) : (ofQ q).b = 0 := rfl

instance addCommGroup : AddCommGroup Qsqrt2 := by
  refine
  { add := (· + ·)
    zero := (0 : Qsqrt2)
    sub := fun x y => x + -y
    neg := Neg.neg
    nsmul := @nsmulRec Qsqrt2 ⟨0⟩ ⟨(· + ·)⟩
    zsmul := @zsmulRec Qsqrt2 ⟨0⟩ ⟨(· + ·)⟩ ⟨Neg.neg⟩ (@nsmulRec Qsqrt2 ⟨0⟩ ⟨(· + ·)⟩)
    add_assoc := ?_
    zero_add := ?_
    add_zero := ?_
    neg_add_cancel := ?_
    add_comm := ?_ } <;>
  intros <;>
  ext <;>
  simp <;>
  ring

@[simp] theorem sub_a (x y : Qsqrt2) : (x - y).a = x.a - y.a := by
  show (x + -y).a = _
  simp
  ring
@[simp] theorem sub_b (x y : Qsqrt2) : (x - y).b = x.b - y.b := by
  show (x + -y).b = _
  simp
  ring

instance addGroupWithOne : AddGroupWithOne Qsqrt2 :=
  { addCommGroup with
    natCast := fun n => ⟨n, 0⟩
    intCast := fun n => ⟨n, 0⟩
    one := 1
    natCast_zero := by apply ext2 <;> simp
    natCast_succ := fun n => by
      apply ext2
      · show ((n + 1 : ℕ) : ℚ) = ((n : ℕ) : ℚ) + 1
        push_cast
        ring
      · show (0 : ℚ) = 0 + 0
        norm_num
    intCast_ofNat := fun n => by
      apply ext2
      · show (((n : ℕ) : ℤ) : ℚ) = ((n : ℕ) : ℚ)
        push_cast
        ring
      · rfl
    intCast_negSucc := fun n => by
      apply ext2
      · show ((Int.negSucc n : ℤ) : ℚ) = -((n + 1 : ℕ) : ℚ)
        push_cast [Int.negSucc_eq]
        ring
      · show (0 : ℚ) = -0
        norm_num }

@[simp] theorem natCast_a (n : ℕ) : (n : Qsqrt2).a = n := rfl
@[simp] theorem natCast_b (n : ℕ) : (n : Qsqrt2).b = 0 := rfl
@[simp] theorem intCast_a (n : ℤ) : (n : Qsqrt2).a = n := rfl
@[simp] theorem intCast_b (n : ℤ) : (n : Qsqrt2).b = 0 := rfl

instance commRing : CommRing Qsqrt2 := by
  refine
  { addGroupWithOne with
    mul := (· * ·)
    npow := @npowRec Qsqrt2 ⟨1⟩ ⟨(· * ·)⟩
    add_comm := ?_
    left_distrib := ?_
    right_distrib := ?_
    zero_mul := ?_
    mul_zero := ?_
    mul_assoc := ?_
    one_mul := ?_
    mul_one := ?_
    mul_comm := ?_ } <;>
  intros <;>
  ext <;>
  simp <;>
  ring

@[simp] theorem ofNat_a (n : ℕ) [n.AtLeastTwo] :
    (no_index (OfNat.ofNat n) : Qsqrt2).a = OfNat.ofNat n := by
  show ((OfNat.ofNat n : ℕ) : ℚ) = OfNat.ofNat n
  exact Nat.cast_ofNat
@[simp] theorem ofNat_b (n : ℕ) [n.AtLeastTwo] :
    (no_index (OfNat.ofNat n) : Qsqrt2).b = 0 := rfl

/-- toReal interprets an element of Qsqrt2 as the real number it denotes. -/
noncomputable def toReal (x : Qsqrt2) : ℝ := (x.a : ℝ) + (x.b : ℝ) * Real.sqrt 2

theorem sqrt2_mul_self : Real.sqrt 2 * Real.sqrt 2 = 2 :=
  Real.mul_self_sqrt (by norm_num)

theorem toReal_injective : Function.Injective toReal := by
  intro x y h
  by_cases hb : x.b = y.b
  · refine ext2 ?_ hb
    have := h
    unfold toReal at this
    rw [hb] at this
    have : (x.a : ℝ) = (y.a : ℝ) := by linarith
    exact_mod_cast this
  · exfalso
    have h1 : y.b - x.b ≠ 0 := sub_ne_zero.mpr (Ne.symm hb)
    have hbb : (y.b : ℝ) - (x.b : ℝ) ≠ 0 := by exact_mod_cast h1
    have hs : Real.sqrt 2 = ((x.a - y.a) / (y.b - x.b) : ℚ) := by
      unfold toReal at h
      push_cast
      rw [eq_div_iff hbb]
      linear_combination -h
    exact irrational_sqrt_two ⟨(x.a - y.a) / (y.b - x.b), hs.symm⟩

theorem toReal_zero : toReal 0 = 0 := by simp [toReal]
theorem toReal_one : toReal 1 = 1 := by simp [toReal]
theorem toReal_add (x y : Qsqrt2) : toReal (x + y) = toReal x + toReal y := by
  simp only [toReal, add_a, add_b]; push_cast; ring
theorem toReal_neg (x : Qsqrt2) : toReal (-x) = -toReal x := by
  simp only [toReal, neg_a, neg_b]; push_cast; ring
theorem toReal_sub (x y : Qsqrt2) : toReal (x - y) = toReal x - toReal y := by
  simp only [toReal, sub_a, sub_b]; push_cast; ring
theorem toReal_mul (x y : Qsqrt2) : toReal (x * y) = toReal x * toReal y := by
  simp only [toReal, mul_a, mul_b]
  push_cast
  linear_combination (-((x.b : ℝ) * (y.b : ℝ))) * sqrt2_mul_self

theorem toReal_natCast (n : ℕ) : toReal (n : Qsqrt2) = n := by simp [toReal]
theorem toReal_intCast (n : ℤ) : toReal (n : Qsqrt2) = n := by simp [toReal]
theorem toReal_ofQ (q : ℚ) : toReal (ofQ q) = q := by simp [toReal]

theorem denom_ne_zero {x : Qsqrt2} (hx : x ≠ 0) : x.a ^ 2 - 2 * x.b ^ 2 ≠ 0 := by
  intro h
  rcases eq_or_ne x.b 0 with hb | hb
  · apply hx
    have ha : x.a ^ 2 = 0 := by rw [hb] at h; simpa using h
    ext
    · exact pow_eq_zero_iff (n := 2) (by norm_num) |>.mp ha
    · exact hb
  · have key : (x.a / x.b) ^ 2 = 2 := by
      field_simp
      linarith
    have key' : ((x.a / x.b : ℚ) : ℝ) ^ 2 = 2 := by exact_mod_cast key
    have h2 : Real.sqrt 2 = ((|x.a / x.b| : ℚ) : ℝ) := by
      rw [Rat.cast_abs, ← Real.sqrt_sq_eq_abs, key']
    exact irrational_sqrt_two ⟨|x.a / x.b|, h2.symm⟩

instance field : Field Qsqrt2 where
  exists_pair_ne := ⟨0, 1, by intro h; exact absurd (congrArg Qsqrt2.a h) (by norm_num)⟩
  mul_inv_cancel := by
    intro x hx
    have hd := denom_ne_zero hx
    ext <;> simp only [mul_a, mul_b, inv_a, inv_b, one_a, one_b] <;> field_simp <;> ring
  inv_zero := by ext <;> simp
  zpow := zpowRec
  nnqsmul := _
  nnqsmul_def := fun _ _ => rfl
  qsmul := _
  qsmul_def := fun _ _ => rfl

/-- Nonneg holds exactly when the denoted real number a + b * sqrt 2 is nonnegative;
it is phrased with rational comparisons only, so it is decidable. -/
def Nonneg (x : Qsqrt2) : Prop :=
  (0 ≤ x.a ∧ 0 ≤ x.b) ∨ (0 ≤ x.a ∧ x.b < 0 ∧ 2 * x.b ^ 2 ≤ x.a ^ 2) ∨
    (x.a < 0 ∧ 0 ≤ x.b ∧ x.a ^ 2 ≤ 2 * x.b ^ 2)

instance decNonneg : DecidablePred Nonneg := fun x => by unfold Nonneg; infer_instance

theorem sqrt2_nonneg : (0 : ℝ) ≤ Real.sqrt 2 := Real.sqrt_nonneg 2

theorem sqrt2_sq_real : Real.sqrt 2 ^ 2 = 2 := Real.sq_sqrt (by norm_num)

theorem real_le_of_sq_le_sq {u v : ℝ} (hv : 0 ≤ v) (h : u ^ 2 ≤ v ^ 2) :
    u ≤ v := by
  by_contra hc
  push_neg at hc
  nlinarith

theorem nonneg_iff (x : Qsqrt2) : Nonneg x ↔ 0 ≤ toReal x := by
  obtain ⟨a, b⟩ := x
  have hs := sqrt2_sq_real
  have hsn := sqrt2_nonneg
  simp only [Nonneg, toReal]
  constructor
  · rintro (⟨h1, h2⟩ | ⟨h1, h2, h3⟩ | ⟨h1, h2, h3⟩)
    · have ha : (0:ℝ) ≤ (a:ℝ) := by exact_mod_cast h1
      have hb : (0:ℝ) ≤ (b:ℝ) := by exact_mod_cast h2
      positivity
    · have ha : (0:ℝ) ≤ (a:ℝ) := by exact_mod_cast h1
      have hb : (b:ℝ) < 0 := by exact_mod_cast h2
      have h3' : 2 * (b:ℝ) ^ 2 ≤ (a:ℝ) ^ 2 := by exact_mod_cast h3
      have key : -(b:ℝ) * Real.sqrt 2 ≤ (a:ℝ) := by
        refine real_le_of_sq_le_sq ha ?_
        rw [mul_pow]
        nlinarith
      nlinarith
    · have ha : (a:ℝ) < 0 := by exact_mod_cast h1
      have hb : (0:ℝ) ≤ (b:ℝ) := by exact_mod_cast h2
      have h3' : (a:ℝ) ^ 2 ≤ 2 * (b:ℝ) ^ 2 := by exact_mod_cast h3
      have key : -(a:ℝ) ≤ (b:ℝ) * Real.sqrt 2 := by
        refine real_le_of_sq_le_sq (by positivity) ?_
        rw [mul_pow]
        nlinarith
      nlinarith
  · intro h
    rcases le_or_lt 0 a with ha | ha <;> rcases le_or_lt 0 b with hb | hb
    · exact Or.inl ⟨ha, hb⟩
    · refine Or.inr (Or.inl ⟨ha, hb, ?_⟩)
      have ha' : (0:ℝ) ≤ (a:ℝ) := by exact_mod_cast ha
      have hb' : (b:ℝ) < 0 := by exact_mod_cast hb
      have key : -(b:ℝ) * Real.sqrt 2 ≤ (a:ℝ) := by nlinarith
      have key2 : 2 * (b:ℝ) ^ 2 ≤ (a:ℝ) ^ 2 := by
        have := pow_le_pow_left₀ (by nlinarith : (0:ℝ) ≤ -(b:ℝ) * Real.sqrt 2) key 2
        rw [mul_pow] at this
        nlinarith
      exact_mod_cast key2
    · refine Or.inr (Or.inr ⟨ha, hb, ?_⟩)
      have ha' : (a:ℝ) < 0 := by exact_mod_cast ha
      have hb' : (0:ℝ) ≤ (b:ℝ) := by exact_mod_cast hb
      have key : -(a:ℝ) ≤ (b:ℝ) * Real.sqrt 2 := by nlinarith
      have key2 : (a:ℝ) ^ 2 ≤ 2 * (b:ℝ) ^ 2 := by
        have := pow_le_pow_left₀ (by nlinarith : (0:ℝ) ≤ -(a:ℝ)) key 2
        rw [mul_pow] at this
        nlinarith
      exact_mod_cast key2
    · exfalso
      have ha' : (a:ℝ) < 0 := by exact_mod_cast ha
      have hb' : (b:ℝ) < 0 := by exact_mod_cast hb
      nlinarith

instance instLE : LE Qsqrt2 := ⟨fun x y => Nonneg (y - x)⟩

instance instDecLE : DecidableRel ((· ≤ ·) : Qsqrt2 → Qsqrt2 → Prop) := fun x y =>
  inferInstanceAs (Decidable (Nonneg (y - x)))

theorem le_iff_toReal (x y : Qsqrt2) : x ≤ y ↔ toReal x ≤ toReal y := by
  have h0 : (x ≤ y) = Nonneg (y - x) := rfl
  rw [h0, nonneg_iff, toReal_sub, sub_nonneg]

instance linearOrder : LinearOrder Qsqrt2 where
  le := (· ≤ ·)
  le_refl := by intro x; rw [le_iff_toReal]
  le_trans := by
    intro x y z h1 h2
    rw [le_iff_toReal] at *
    linarith
  le_antisymm := by
    intro x y h1 h2
    rw [le_iff_toReal] at *
    exact toReal_injective (le_antisymm h1 h2)
  le_total := by
    intro x y
    rw [le_iff_toReal, le_iff_toReal]
    exact le_total _ _
  decidableLE := instDecLE

theorem lt_iff_toReal (x y : Qsqrt2) : x < y ↔ toReal x < toReal y := by
  rw [lt_iff_le_not_le, le_iff_toReal, le_iff_toReal, ← lt_iff_le_not_le]

instance : LinearOrderedField Qsqrt2 := {
  field, linearOrder with
  add_le_add_left := by
    intro x y h c
    rw [le_iff_toReal] at *
    rw [toReal_add, toReal_add]
    linarith
  zero_le_one := by
    rw [le_iff_toReal, toReal_zero, toReal_one]
    norm_num
  mul_pos := by
    intro x y hx hy
    rw [lt_iff_toReal] at *
    rw [toReal_mul, toReal_zero] at *
    exact mul_pos hx hy
}

/-- sqrt2 is the element of Qsqrt2 denoting the square root of two. -/
def sqrt2 : Qsqrt2 := ⟨0, 1⟩

theorem toReal_sqrt2 : toReal sqrt2 = Real.sqrt 2 := by simp [toReal, sqrt2]

theorem sqrt2_sq : sqrt2 * sqrt2 = 2 := by
  apply ext2 <;> simp [sqrt2]

@[simp] theorem div_a (x y : Qsqrt2) : (x / y).a =
    x.a * (y.a / (y.a ^ 2 - 2 * y.b ^ 2)) + 2 * (x.b * (-y.b / (y.a ^ 2 - 2 * y.b ^ 2))) := rfl
@[simp] theorem div_b (x y : Qsqrt2) : (x / y).b =
    x.a * (-y.b / (y.a ^ 2 - 2 * y.b ^ 2)) + x.b * (y.a / (y.a ^ 2 - 2 * y.b ^ 2)) := rfl

theorem le_def (x y : Qsqrt2) : x ≤ y ↔ Nonneg (y - x) := Iff.rfl

theorem lt_def (x y : Qsqrt2) : x < y ↔ ¬ Nonneg (x - y) := by
  rw [lt_iff_not_ge]
  exact not_congr (le_def y x)

@[simp] theorem mk_a (p q : ℚ) : (Qsqrt2.mk p q).a = p := rfl
@[simp] theorem mk_b (p q : ℚ) : (Qsqrt2.mk p q).b = q := rfl

end Qsqrt2

/-- Color is an RGBA tuple of byte values. -/
abbrev Color := ℕ × ℕ × ℕ × ℕ

/-- Line mirrors the nested class Line of the source: two endpoints, a body
color and an outline color; the fields A B C D derived in its constructor are
given as definitions below.  It is stated over a general linear ordered field
so that facts about it apply both to the rational points used in witnesses and
to the Qsqrt2 points produced by the rasterizer. -/
structure Line (α : Type) where
  x1 : α
  y1 : α
  x2 : α
  y2 : α
  body_color : Color
  outline_color : Color

namespace Line

variable {α : Type} [LinearOrderedField α]

/-- A mirrors self.A = x2 - x1. -/
def A (l : Line α) : α := l.x2 - l.x1

/-- B mirrors self.B = y2 - y1. -/
def B (l : Line α) : α := l.y2 - l.y1

/-- C mirrors self.C = -x1 * A - y1 * B. -/
def C (l : Line α) : α := -l.x1 * l.A - l.y1 * l.B

/-- D mirrors self.D = A ^ 2 + B ^ 2. -/
def D (l : Line α) : α := l.A ^ 2 + l.B ^ 2

/-- distance2 mirrors Line.distance2: the squared distance from the point
(x, y) to the segment, computed from the scalar projection r with clamping to
the endpoints. -/
def distance2 (l : Line α) (x y : α) : α :=
  let r := (x * l.A + y * l.B + l.C) / l.D
  if r ≤ 0 then (x - l.x1) ^ 2 + (y - l.y1) ^ 2
  else if 1 ≤ r then (x - l.x2) ^ 2 + (y - l.y2) ^ 2
  else (x - (l.x1 + r * l.A)) ^ 2 + (y - (l.y1 + r * l.B)) ^ 2

/-- proj names the scalar projection r computed inside distance2. -/
def proj (l : Line α) (x y : α) : α := (x * l.A + y * l.B + l.C) / l.D

theorem distance2_eq (l : Line α) (x y : α) :
    l.distance2 x y =
      if l.proj x y ≤ 0 then (x - l.x1) ^ 2 + (y - l.y1) ^ 2
      else if 1 ≤ l.proj x y then (x - l.x2) ^ 2 + (y - l.y2) ^ 2
      else (x - (l.x1 + l.proj x y * l.A)) ^ 2 + (y - (l.y1 + l.proj x y * l.B)) ^ 2 := rfl

end Line

/-- logoLines mirrors self.lines of Logo.__init__: the five segments, in
source order: two outside diagonals, two inside diagonals, the single
horizontal bar. -/
def logoLines {α : Type} [LinearOrderedField α] (olb olo ilb ilo slb slo : Color) :
    List (Line α) :=
  [⟨-3, 0, 0, 3, olb, olo⟩,
   ⟨3, 0, 0, -3, olb, olo⟩,
   ⟨-1, 0, 0, 1, ilb, ilo⟩,
   ⟨1, 0, 0, -1, ilb, ilo⟩,
   ⟨3, 0, -3, 0, slb, slo⟩]

/-- lineClaim is the body of the inner loop of Logo.__init__ for a single
line: the squared pixel-space distance d2 = distance2 * unit2 is compared
first against the body threshold, then against the outline threshold; the
returned option records which color, if any, the line assigns. -/
def lineClaim {α : Type} [LinearOrderedField α] (l : Line α) (unit2 bd2 sd2 x y : α) :
    Option Color :=
  let d2 := l.distance2 x y * unit2
  if d2 ≤ bd2 then some l.body_color
  else if d2 ≤ sd2 then some l.outline_color
  else none

/-- classifyLines is the inner loop of Logo.__init__: lines are scanned in
order and the first line whose body or outline claims the pixel decides the
color (the break in the source); none means no line claimed the pixel. -/
def classifyLines {α : Type} [LinearOrderedField α] :
    List (Line α) → α → α → α → α → α → Option Color
  | [], _, _, _, _, _ => none
  | l :: ls, unit2, bd2, sd2, x, y =>
    match lineClaim l unit2 bd2 sd2 x y with
    | some c => some c
    | none => classifyLines ls unit2 bd2 sd2 x y

/-- cullPass is the guard of Logo.__init__ lines 316 to 331: a pixel is
evaluated against the lines only when none of the four cull tests fires. -/
def cullPass {α : Type} [LinearOrderedField α] (sd s2sd x y : α) : Prop :=
  (¬ (sd ≤ x ∧ sd ≤ y)) ∧ (¬ (x ≤ -sd ∧ y ≤ -sd)) ∧
    (¬ (3 + s2sd < x - y)) ∧ (¬ (x - y < -3 - s2sd))

instance {α : Type} [LinearOrderedField α] (sd s2sd x y : α) :
    Decidable (cullPass sd s2sd x y) := by unfold cullPass; infer_instance

/-- cullSkip is the complement of cullPass: the disjunction of the four cull
tests, i.e. the condition under which the source skips a pixel. -/
def cullSkip {α : Type} [LinearOrderedField α] (sd s2sd x y : α) : Prop :=
  (sd ≤ x ∧ sd ≤ y) ∨ (x ≤ -sd ∧ y ≤ -sd) ∨ (3 + s2sd < x - y) ∨ (x - y < -3 - s2sd)

instance {α : Type} [LinearOrderedField α] (sd s2sd x y : α) :
    Decidable (cullSkip sd s2sd x y) := by unfold cullSkip; infer_instance

theorem cullPass_iff_not_skip {α : Type} [LinearOrderedField α] (sd s2sd x y : α) :
    cullPass sd s2sd x y ↔ ¬ cullSkip sd s2sd x y := by
  unfold cullPass cullSkip
  tauto

/-- standardDistance mirrors the class constant Line.standard_distance,
the square root of two divided by four. -/
def standardDistance : Qsqrt2 := Qsqrt2.sqrt2 / 4

theorem standardDistance_eq : standardDistance = ⟨0, 1/4⟩ := by
  rw [standardDistance, div_eq_mul_inv]
  apply Qsqrt2.ext2 <;> simp [Qsqrt2.sqrt2] <;> norm_num

/-- logoUnit mirrors self.unit = logo_size / (6 + standard_distance * 2). -/
def logoUnit (size : ℤ) : Qsqrt2 := (size : Qsqrt2) / (6 + standardDistance * 2)

/-- sqrt2SD mirrors sqrt2_standard_distance = sqrt(2) * standard_distance. -/
def sqrt2SD : Qsqrt2 := Qsqrt2.sqrt2 * standardDistance

/-- logoStdDist2 mirrors standard_distance2 = (standard_distance * unit) ^ 2. -/
def logoStdDist2 (size : ℤ) : Qsqrt2 := (standardDistance * logoUnit size) ^ 2

/-- logoBodyDist2 mirrors body_distance2 =
(standard_distance * unit - outline_thickness) ^ 2. -/
def logoBodyDist2 (size : ℤ) (t : ℚ) : Qsqrt2 :=
  (standardDistance * logoUnit size - Qsqrt2.ofQ t) ^ 2

/-- logoLocal mirrors x_in_logo = (x - size / 2) / unit. -/
def logoLocal (size : ℤ) (i : ℤ) : Qsqrt2 :=
  ((i : Qsqrt2) - (size : Qsqrt2) / 2) / logoUnit size

/-- logoPixel is the per-pixel body of the rasterization loop of
Logo.__init__: cull guard, then first-match scan of the five lines; a pixel
claimed by no line keeps its previous color (the loop does not write it). -/
def logoPixel (size : ℤ) (t : ℚ) (olb olo ilb ilo slb slo : Color) (prev : Color)
    (px py : ℤ) : Color :=
  let xl := logoLocal size px
  let yl := logoLocal size py
  if cullPass standardDistance sqrt2SD xl yl then
    match classifyLines (logoLines olb olo ilb ilo slb slo) ((logoUnit size) ^ 2)
        (logoBodyDist2 size t) (logoStdDist2 size) xl yl with
    | some c => c
    | none => prev
  else prev

/-- Modelled from the spec: logoPixelUnculled is the glyph rasterizer with
the cull fast-path omitted (the spec states rendering without the cull must
be pixel-for-pixel identical, only slower). -/
def logoPixelUnculled (size : ℤ) (t : ℚ) (olb olo ilb ilo slb slo : Color) (prev : Color)
    (px py : ℤ) : Color :=
  match classifyLines (logoLines olb olo ilb ilo slb slo) ((logoUnit size) ^ 2)
      (logoBodyDist2 size t) (logoStdDist2 size) (logoLocal size px) (logoLocal size py) with
  | some c => c
  | none => prev

/-- circlePixel is the per-pixel body of the loop of Circle.__init__:
squared distance to the center of the region, body disk, outline ring,
otherwise the pixel is left unchanged. -/
def circlePixel (radius : ℤ) (t : ℚ) (body outline prev : Color) (lx ly : ℤ) : Color :=
  let r2 : ℚ := ((lx : ℚ) - (radius : ℚ)) ^ 2 + ((ly : ℚ) - (radius : ℚ)) ^ 2
  if r2 ≤ ((radius : ℚ) - t) ^ 2 then body
  else if r2 ≤ (radius : ℚ) ^ 2 then outline
  else prev

/-- circleBuffer denotes the contents of the Circle buffer after its loop:
pixels of the 2 * radius sided region follow circlePixel, pixels outside the
iterated region keep the previous contents. -/
def circleBuffer (radius : ℤ) (t : ℚ) (body outline : Color) (prev : ℤ → ℤ → Color)
    (x y : ℤ) : Color :=
  if 0 ≤ x ∧ x < 2 * radius ∧ 0 ≤ y ∧ y < 2 * radius then
    circlePixel radius t body outline (prev x y) x y
  else prev x y

/-- qtrunc is Python int() on an exact rational: truncation toward zero. -/
def qtrunc (q : ℚ) : ℤ := if 0 ≤ q then ⌊q⌋ else -⌊-q⌋

/-- Config is the flat parameter record stored by LogoImage.__init__.
The fields logo_frac and circle_frac are the source attributes
logo_size_ratio and circle_size_ratio. -/
structure Config where
  width : ℤ
  height : ℤ
  use_round_shape : Bool
  logo_frac : ℚ
  circle_frac : ℚ
  outline_thickness : ℚ
  background_color : Color
  outside_line_body_color : Color
  outside_line_outline_color : Color
  inside_line_body_color : Color
  inside_line_outline_color : Color
  single_line_body_color : Color
  single_line_outline_color : Color
  circle_body_color : Color
  circle_outline_color : Color

/-- init mirrors LogoImage.__init__: every parameter is stored unchanged;
no validation of any kind is performed. -/
def init (width height : ℤ) (use_round : Bool) (logo_frac circle_frac t : ℚ)
    (bg olb olo ilb ilo slb slo cb co : Color) : Config :=
  ⟨width, height, use_round, logo_frac, circle_frac, t,
   bg, olb, olo, ilb, ilo, slb, slo, cb, co⟩

namespace Config

/-- minWH is min(self.height, self.width). -/
def minWH (c : Config) : ℤ := min c.height c.width

/-- circleRadius mirrors int(min(h, w) * circle_size_ratio // 2). -/
def circleRadius (c : Config) : ℤ := ⌊(c.minWH : ℚ) * c.circle_frac / 2⌋

/-- circleStartX mirrors circle_start_x = width // 2 - circle_radius. -/
def circleStartX (c : Config) : ℤ := c.width / 2 - c.circleRadius

/-- circleStartY mirrors circle_start_y = height // 2 - circle_radius. -/
def circleStartY (c : Config) : ℤ := c.height / 2 - c.circleRadius

/-- logoSize mirrors logo_size = int(min(h, w) * logo_size_ratio). -/
def logoSize (c : Config) : ℤ := qtrunc ((c.minWH : ℚ) * c.logo_frac)

/-- logoStartX mirrors logo_start_x = (width - logo_size) // 2. -/
def logoStartX (c : Config) : ℤ := (c.width - c.logoSize) / 2

/-- logoStartY mirrors logo_start_y = (height - logo_size) // 2. -/
def logoStartY (c : Config) : ℤ := (c.height - c.logoSize) / 2

/-- afterCircle is the canvas after the background fill and the optional
backdrop stamp of draw (source lines 96 to 122): inside the centered circle
region the circle rasterizer decides, elsewhere the background color. -/
def afterCircle (c : Config) (x y : ℤ) : Color :=
  if c.use_round_shape = true ∧ c.circleStartX ≤ x ∧ x < c.circleStartX + 2 * c.circleRadius ∧
      c.circleStartY ≤ y ∧ y < c.circleStartY + 2 * c.circleRadius then
    circlePixel c.circleRadius c.outline_thickness c.circle_body_color
      c.circle_outline_color c.background_color (x - c.circleStartX) (y - c.circleStartY)
  else c.background_color

/-- logoTensor is the Logo buffer after the rasterization loop; the buffer is
an in-place view of the canvas slice, so an unclaimed pixel holds the
afterCircle contents at the corresponding canvas position. -/
def logoTensor (c : Config) (i j : ℤ) : Color :=
  logoPixel c.logoSize c.outline_thickness c.outside_line_body_color
    c.outside_line_outline_color c.inside_line_body_color c.inside_line_outline_color
    c.single_line_body_color c.single_line_outline_color
    (c.afterCircle (c.logoStartX + i) (c.logoStartY + j)) i j

/-- drawValue is the canvas after draw writes the transposed and flipped logo
buffer back into the centered slice (source lines 132 to 148): the slice
assignment value[lsx + i, lsy + j] = tensor[j, size - 1 - i]. -/
def drawValue (c : Config) (x y : ℤ) : Color :=
  if c.logoStartX ≤ x ∧ x < c.logoStartX + c.logoSize ∧
      c.logoStartY ≤ y ∧ y < c.logoStartY + c.logoSize then
    c.logoTensor (y - c.logoStartY) (c.logoSize - 1 - (x - c.logoStartX))
  else c.afterCircle x y

/-- drawImage is the final image of draw (source line 151): the canvas
transposed into row major top left origin order. -/
def drawImage (c : Config) (row col : ℤ) : Color := c.drawValue col row

end Config

/-! Geometry of the segment distance field. -/

section SegmentGeometry

variable {α : Type} [LinearOrderedField α]

/-- lerpSq is the squared distance from (x, y) to the point of the segment at
parameter t. -/
def lerpSq (l : Line α) (t x y : α) : α :=
  (x - (l.x1 + t * l.A)) ^ 2 + (y - (l.y1 + t * l.B)) ^ 2

theorem param_identity (l : Line α) (hD : l.D ≠ 0) (x y t : α) :
    lerpSq l t x y = lerpSq l (l.proj x y) x y + l.D * (t - l.proj x y) ^ 2 := by
  have hDdef : l.D = l.A ^ 2 + l.B ^ 2 := rfl
  have hC : l.C = -l.x1 * l.A - l.y1 * l.B := rfl
  simp only [lerpSq, Line.proj, hC]
  rw [hDdef] at hD ⊢
  field_simp
  ring

theorem lerpSq_zero (l : Line α) (x y : α) :
    lerpSq l 0 x y = (x - l.x1) ^ 2 + (y - l.y1) ^ 2 := by
  simp [lerpSq]

theorem lerpSq_one (l : Line α) (x y : α) :
    lerpSq l 1 x y = (x - l.x2) ^ 2 + (y - l.y2) ^ 2 := by
  have hx2 : l.x1 + 1 * l.A = l.x2 := by simp [Line.A]
  have hy2 : l.y1 + 1 * l.B = l.y2 := by simp [Line.B]
  simp only [lerpSq, hx2, hy2]

theorem distance2_cases (l : Line α) (x y : α) :
    (l.proj x y ≤ 0 ∧ l.distance2 x y = lerpSq l 0 x y) ∨
    (1 ≤ l.proj x y ∧ l.distance2 x y = lerpSq l 1 x y) ∨
    (0 < l.proj x y ∧ l.proj x y < 1 ∧ l.distance2 x y = lerpSq l (l.proj x y) x y) := by
  rw [Line.distance2_eq]
  rcases le_or_lt (l.proj x y) 0 with h0 | h0
  · exact Or.inl ⟨h0, by rw [if_pos h0, lerpSq_zero]⟩
  · rcases le_or_lt 1 (l.proj x y) with h1 | h1
    · exact Or.inr (Or.inl ⟨h1, by rw [if_neg (by linarith), if_pos h1, lerpSq_one]⟩)
    · exact Or.inr (Or.inr ⟨h0, h1, by
        rw [if_neg (by linarith), if_neg (by linarith)]
        rfl⟩)

theorem distance2_exists_rep (l : Line α) (x y : α) :
    ∃ t : α, 0 ≤ t ∧ t ≤ 1 ∧ l.distance2 x y = lerpSq l t x y := by
  rcases distance2_cases l x y with ⟨_, h⟩ | ⟨_, h⟩ | ⟨h0, h1, h⟩
  · exact ⟨0, le_refl 0, zero_le_one, h⟩
  · exact ⟨1, zero_le_one, le_refl 1, h⟩
  · exact ⟨l.proj x y, h0.le, h1.le, h⟩

theorem distance2_le_lerpSq (l : Line α) (hD : 0 < l.D) (x y t : α)
    (ht0 : 0 ≤ t) (ht1 : t ≤ 1) : l.distance2 x y ≤ lerpSq l t x y := by
  have hid := param_identity l hD.ne' x y
  set r := l.proj x y with hr
  rcases distance2_cases l x y with ⟨h0, h⟩ | ⟨h1, h⟩ | ⟨_, _, h⟩
  · rw [h]
    have e0 := hid 0
    have et := hid t
    have hkey : 0 ≤ l.D * ((t - r) ^ 2 - (0 - r) ^ 2) := by
      have : (t - r) ^ 2 - (0 - r) ^ 2 = t * (t - 2 * r) := by ring
      rw [this]
      have h2 : 0 ≤ t - 2 * r := by linarith
      positivity
    nlinarith [e0, et]
  · rw [h]
    have e1 := hid 1
    have et := hid t
    have h2 : t - 1 ≤ 0 := by linarith
    have h3 : t + 1 - 2 * r ≤ 0 := by linarith
    have h4 : 0 ≤ (t - 1) * (t + 1 - 2 * r) := by
      nlinarith [mul_nonneg (neg_nonneg.mpr h2) (neg_nonneg.mpr h3)]
    nlinarith [e1, et, mul_nonneg hD.le h4]
  · rw [h]
    have et := hid t
    nlinarith [et, mul_nonneg hD.le (sq_nonneg (t - r))]

theorem proj_at_start (l : Line α) : l.proj l.x1 l.y1 = 0 := by
  have : l.x1 * l.A + l.y1 * l.B + l.C = 0 := by
    simp [Line.C]
  simp [Line.proj, this]

theorem proj_at_end (l : Line α) (hD : l.D ≠ 0) : l.proj l.x2 l.y2 = 1 := by
  have h : l.x2 * l.A + l.y2 * l.B + l.C = l.D := by
    simp [Line.C, Line.D, Line.A, Line.B]
    ring
  rw [Line.proj, h, div_self hD]

theorem distance2_start (l : Line α) : l.distance2 l.x1 l.y1 = 0 := by
  rw [Line.distance2_eq, if_pos (le_of_eq (proj_at_start l))]
  ring

theorem distance2_end (l : Line α) (hD : l.D ≠ 0) : l.distance2 l.x2 l.y2 = 0 := by
  rw [Line.distance2_eq, proj_at_end l hD]
  norm_num

theorem start_nearer (l : Line α) (hD : 0 < l.D) (x y : α) (h0 : l.proj x y ≤ 0) :
    lerpSq l 0 x y ≤ lerpSq l 1 x y := by
  have e0 := param_identity l hD.ne' x y 0
  have e1 := param_identity l hD.ne' x y 1
  set r := l.proj x y
  have hkey : 0 ≤ l.D * (1 - 2 * r) := mul_nonneg hD.le (by linarith)
  nlinarith [e0, e1]

theorem end_nearer (l : Line α) (hD : 0 < l.D) (x y : α) (h1 : 1 ≤ l.proj x y) :
    lerpSq l 1 x y ≤ lerpSq l 0 x y := by
  have e0 := param_identity l hD.ne' x y 0
  have e1 := param_identity l hD.ne' x y 1
  set r := l.proj x y
  have hkey : 0 ≤ l.D * (2 * r - 1) := mul_nonneg hD.le (by linarith)
  nlinarith [e0, e1]

end SegmentGeometry

/-! Basic facts about the renderer constants. -/

theorem Qsqrt2.toReal_mk (p q : ℚ) : Qsqrt2.toReal ⟨p, q⟩ = (p : ℝ) + (q : ℝ) * Real.sqrt 2 := rfl

theorem ofQ_le_ofQ {p q : ℚ} (h : p ≤ q) : Qsqrt2.ofQ p ≤ Qsqrt2.ofQ q := by
  rw [Qsqrt2.le_def]
  simp [Qsqrt2.Nonneg, Qsqrt2.ofQ]
  left
  linarith

theorem ofQ_pos {q : ℚ} (h : 0 < q) : 0 < Qsqrt2.ofQ q := by
  rw [Qsqrt2.lt_def]
  simp [Qsqrt2.Nonneg, Qsqrt2.ofQ]
  exact ⟨h, fun _ => pow_pos h 2⟩

theorem ofQ_zero : Qsqrt2.ofQ 0 = 0 := rfl

theorem standardDistance_pos : 0 < standardDistance := by
  rw [standardDistance_eq, Qsqrt2.lt_def]
  simp [Qsqrt2.Nonneg]

theorem standardDistance_sq : standardDistance ^ 2 = 1 / 8 := by
  rw [standardDistance_eq, pow_two, div_eq_mul_inv]
  apply Qsqrt2.ext2 <;> simp <;> norm_num

theorem sqrt2SD_eq : sqrt2SD = 1 / 2 := by
  rw [sqrt2SD, standardDistance_eq, div_eq_mul_inv]
  apply Qsqrt2.ext2 <;> simp [Qsqrt2.sqrt2] <;> norm_num

theorem three_add_sqrt2SD : (3 : Qsqrt2) + sqrt2SD = 7 / 2 := by
  rw [sqrt2SD_eq, div_eq_mul_inv, div_eq_mul_inv]
  apply Qsqrt2.ext2 <;> simp <;> norm_num

theorem intCast_pos {n : ℤ} (h : 0 < n) : (0 : Qsqrt2) < (n : Qsqrt2) := by
  rw [Qsqrt2.lt_iff_toReal, Qsqrt2.toReal_zero, Qsqrt2.toReal_intCast]
  exact_mod_cast h

theorem six_add_sd2_pos : (0 : Qsqrt2) < 6 + standardDistance * 2 := by
  rw [Qsqrt2.lt_iff_toReal, Qsqrt2.toReal_zero, standardDistance_eq]
  have h1 : (6 : Qsqrt2) + (⟨0, 1/4⟩ : Qsqrt2) * 2 = ⟨6, 1/2⟩ := by
    apply Qsqrt2.ext2 <;> simp <;> norm_num
  rw [h1, Qsqrt2.toReal_mk]
  have := Qsqrt2.sqrt2_nonneg
  norm_num
  nlinarith

theorem logoUnit_pos {size : ℤ} (h : 0 < size) : 0 < logoUnit size :=
  div_pos (intCast_pos h) six_add_sd2_pos

theorem logoStdDist2_eq (size : ℤ) :
    logoStdDist2 size = (logoUnit size) ^ 2 * (1 / 8) := by
  rw [logoStdDist2, mul_pow, ← standardDistance_sq]
  ring

/-! First-match scanning and separation of the glyph strokes. -/

theorem classifyLines_first_match {α : Type} [LinearOrderedField α]
    (pre post : List (Line α)) (l : Line α) (u2 b2 s2 x y : α) (col : Color)
    (hpre : ∀ l2 ∈ pre, lineClaim l2 u2 b2 s2 x y = none)
    (hl : lineClaim l u2 b2 s2 x y = some col) :
    classifyLines (pre ++ l :: post) u2 b2 s2 x y = some col := by
  induction pre with
  | nil =>
    rw [List.nil_append]
    show (match lineClaim l u2 b2 s2 x y with
      | some c => some c
      | none => classifyLines post u2 b2 s2 x y) = some col
    rw [hl]
  | cons p ps ih =>
    have hp : lineClaim p u2 b2 s2 x y = none := hpre p (by simp)
    rw [List.cons_append]
    show (match lineClaim p u2 b2 s2 x y with
      | some c => some c
      | none => classifyLines (ps ++ l :: post) u2 b2 s2 x y) = some col
    rw [hp]
    exact ih (fun l2 h2 => hpre l2 (by simp [h2]))

theorem classifyLines_all_none {α : Type} [LinearOrderedField α]
    (ls : List (Line α)) (u2 b2 s2 x y : α)
    (h : ∀ l ∈ ls, lineClaim l u2 b2 s2 x y = none) :
    classifyLines ls u2 b2 s2 x y = none := by
  induction ls with
  | nil => rfl
  | cons p ps ih =>
    have hp : lineClaim p u2 b2 s2 x y = none := h p (by simp)
    show (match lineClaim p u2 b2 s2 x y with
      | some c => some c
      | none => classifyLines ps u2 b2 s2 x y) = none
    rw [hp]
    exact ih (fun l2 h2 => h l2 (by simp [h2]))

theorem diag_line_bound {α : Type} [LinearOrderedField α] (l : Line α)
    (hAB : l.A = l.B) (x y : α) :
    (x - y + (l.y1 - l.x1)) ^ 2 ≤ 2 * l.distance2 x y := by
  obtain ⟨t, _, _, heq⟩ := distance2_exists_rep l x y
  rw [heq, lerpSq, hAB]
  nlinarith [sq_nonneg ((x - (l.x1 + t * l.B)) + (y - (l.y1 + t * l.B)))]

theorem diag_line_bound2 {α : Type} [LinearOrderedField α] (l : Line α)
    (hAB : l.A = l.B) (c x y : α) (hc : l.y1 - l.x1 = c) :
    (x - y + c) ^ 2 ≤ 2 * l.distance2 x y := by
  rw [← hc]
  exact diag_line_bound l hAB x y

theorem outside_inside_sep {α : Type} [LinearOrderedField α]
    (x y : α) (co1 co2 ci1 ci2 : Color) (o i : Line α)
    (ho : o = ⟨-3, 0, 0, 3, co1, co2⟩ ∨ o = ⟨3, 0, 0, -3, co1, co2⟩)
    (hi : i = ⟨-1, 0, 0, 1, ci1, ci2⟩ ∨ i = ⟨1, 0, 0, -1, ci1, ci2⟩)
    (hod : o.distance2 x y ≤ 1 / 8) : 1 / 8 < i.distance2 x y := by
  rcases ho with rfl | rfl
  · have hbo := diag_line_bound2 (⟨-3, 0, 0, 3, co1, co2⟩ : Line α)
      (by norm_num [Line.A, Line.B]) 3 x y (by norm_num)
    have hw : (x - y + 3) ^ 2 ≤ 1 / 4 := by linarith
    have hwle : x - y + 3 ≤ 1 / 2 := by nlinarith [hw]
    rcases hi with rfl | rfl
    · have hbi := diag_line_bound2 (⟨-1, 0, 0, 1, ci1, ci2⟩ : Line α)
        (by norm_num [Line.A, Line.B]) 1 x y (by norm_num)
      have h9 : (9 : α) / 4 ≤ (x - y + 1) ^ 2 := by
        nlinarith [sq_nonneg (x - y + 3 - 1 / 2)]
      linarith
    · have hbi := diag_line_bound2 (⟨1, 0, 0, -1, ci1, ci2⟩ : Line α)
        (by norm_num [Line.A, Line.B]) (-1) x y (by norm_num)
      have h9 : (49 : α) / 4 ≤ (x - y + -1) ^ 2 := by
        nlinarith [sq_nonneg (x - y + 3 - 1 / 2)]
      linarith
  · have hbo := diag_line_bound2 (⟨3, 0, 0, -3, co1, co2⟩ : Line α)
      (by norm_num [Line.A, Line.B]) (-3) x y (by norm_num)
    have hw : (x - y + -3) ^ 2 ≤ 1 / 4 := by linarith
    have hwge : -(1 / 2) ≤ x - y + -3 := by nlinarith [hw]
    rcases hi with rfl | rfl
    · have hbi := diag_line_bound2 (⟨-1, 0, 0, 1, ci1, ci2⟩ : Line α)
        (by norm_num [Line.A, Line.B]) 1 x y (by norm_num)
      have h9 : (49 : α) / 4 ≤ (x - y + 1) ^ 2 := by
        nlinarith [sq_nonneg (x - y + -3 + 1 / 2)]
      linarith
    · have hbi := diag_line_bound2 (⟨1, 0, 0, -1, ci1, ci2⟩ : Line α)
        (by norm_num [Line.A, Line.B]) (-1) x y (by norm_num)
      have h9 : (9 : α) / 4 ≤ (x - y + -1) ^ 2 := by
        nlinarith [sq_nonneg (x - y + -3 + 1 / 2)]
      linarith


/-! Soundness of the cull fast-path: every point of the cull region,
strictly inside it, is at squared distance more than 1 / 8 from all five
segments. -/

section CullFar

variable {α : Type} [LinearOrderedField α]

theorem far_case_x_high (s x y u v : α) (hs2 : s ^ 2 = 1 / 8) (hs0 : 0 < s)
    (hx : s < x) (hu : u ≤ 0) : 1 / 8 < (x - u) ^ 2 + (y - v) ^ 2 := by
  have h1 : s < x - u := by linarith
  have h2 : s ^ 2 < (x - u) ^ 2 := by nlinarith
  nlinarith [sq_nonneg (y - v)]

theorem far_case_y_high (s x y u v : α) (hs2 : s ^ 2 = 1 / 8) (hs0 : 0 < s)
    (hy : s < y) (hv : v ≤ 0) : 1 / 8 < (x - u) ^ 2 + (y - v) ^ 2 := by
  have h1 : s < y - v := by linarith
  have h2 : s ^ 2 < (y - v) ^ 2 := by nlinarith
  nlinarith [sq_nonneg (x - u)]

theorem far_case_x_low (s x y u v : α) (hs2 : s ^ 2 = 1 / 8) (hs0 : 0 < s)
    (hx : x < -s) (hu : 0 ≤ u) : 1 / 8 < (x - u) ^ 2 + (y - v) ^ 2 := by
  have h1 : s < -(x - u) := by linarith
  have h2 : s ^ 2 < (x - u) ^ 2 := by nlinarith
  nlinarith [sq_nonneg (y - v)]

theorem far_case_y_low (s x y u v : α) (hs2 : s ^ 2 = 1 / 8) (hs0 : 0 < s)
    (hy : y < -s) (hv : 0 ≤ v) : 1 / 8 < (x - u) ^ 2 + (y - v) ^ 2 := by
  have h1 : s < -(y - v) := by linarith
  have h2 : s ^ 2 < (y - v) ^ 2 := by nlinarith
  nlinarith [sq_nonneg (x - u)]

theorem far_case_diag_high (x y u v c : α) (hc : -3 ≤ c) (huv : u - v = -c)
    (hd : 7 / 2 < x - y) : 1 / 8 < (x - u) ^ 2 + (y - v) ^ 2 := by
  have h1 : 0 < (x - u) - (y - v) - 1 / 2 := by linarith
  have h2 : 0 < (x - u) - (y - v) + 1 / 2 := by linarith
  nlinarith [sq_nonneg ((x - u) + (y - v)), mul_pos h1 h2]

theorem far_case_diag_low (x y u v c : α) (hc : c ≤ 3) (huv : u - v = -c)
    (hd : x - y < -(7 / 2)) : 1 / 8 < (x - u) ^ 2 + (y - v) ^ 2 := by
  have h1 : 0 < -((x - u) - (y - v)) - 1 / 2 := by linarith
  have h2 : 0 < -((x - u) - (y - v)) + 1 / 2 := by linarith
  nlinarith [sq_nonneg ((x - u) + (y - v)), mul_pos h1 h2]

theorem far_case_bar_high (x y u v : α) (hv : v = 0) (hu : u ≤ 3) (hd : 7 / 2 < x - y) :
    1 / 8 < (x - u) ^ 2 + (y - v) ^ 2 := by
  subst hv
  have hg : 0 < x - u - y - 1 / 2 := by linarith
  nlinarith [sq_nonneg (4 * y + 1 + 2 * (x - u - y - 1 / 2)), hg, mul_pos hg hg]

theorem far_case_bar_low (x y u v : α) (hv : v = 0) (hu : -3 ≤ u) (hd : x - y < -(7 / 2)) :
    1 / 8 < (x - u) ^ 2 + (y - v) ^ 2 := by
  subst hv
  have hg : 0 < y + u - x - 1 / 2 := by linarith
  nlinarith [sq_nonneg (4 * y - 1 - 2 * (y + u - x - 1 / 2)), hg, mul_pos hg hg]

theorem cull_region_far (s : α) (hs2 : s ^ 2 = 1 / 8) (hs0 : 0 < s)
    (x y : α) (c1 c2 c3 c4 c5 c6 : Color)
    (hcull : (s < x ∧ s < y) ∨ (x < -s ∧ y < -s) ∨ (7 / 2 < x - y) ∨ (x - y < -(7 / 2))) :
    ∀ l ∈ logoLines (α := α) c1 c2 c3 c4 c5 c6, 1 / 8 < l.distance2 x y := by
  intro l hl
  simp only [logoLines, List.mem_cons, List.not_mem_nil, or_false] at hl
  obtain ⟨t, ht0, ht1, heq⟩ := distance2_exists_rep l x y
  rw [heq]
  rcases hl with rfl | rfl | rfl | rfl | rfl
  · rw [lerpSq]
    rcases hcull with ⟨hx, hy⟩ | ⟨hx, hy⟩ | hd | hd
    · exact far_case_x_high s x y _ _ hs2 hs0 hx (by norm_num [Line.A]; linarith)
    · exact far_case_y_low s x y _ _ hs2 hs0 hy (by norm_num [Line.B]; linarith)
    · exact far_case_diag_high x y _ _ (3) (by norm_num) (by norm_num [Line.A, Line.B]) hd
    · exact far_case_diag_low x y _ _ (3) (by norm_num) (by norm_num [Line.A, Line.B]) hd
  · rw [lerpSq]
    rcases hcull with ⟨hx, hy⟩ | ⟨hx, hy⟩ | hd | hd
    · exact far_case_y_high s x y _ _ hs2 hs0 hy (by norm_num [Line.B]; linarith)
    · exact far_case_x_low s x y _ _ hs2 hs0 hx (by norm_num [Line.A]; linarith)
    · exact far_case_diag_high x y _ _ (-3) (by norm_num) (by norm_num [Line.A, Line.B]) hd
    · exact far_case_diag_low x y _ _ (-3) (by norm_num) (by norm_num [Line.A, Line.B]) hd
  · rw [lerpSq]
    rcases hcull with ⟨hx, hy⟩ | ⟨hx, hy⟩ | hd | hd
    · exact far_case_x_high s x y _ _ hs2 hs0 hx (by norm_num [Line.A]; linarith)
    · exact far_case_y_low s x y _ _ hs2 hs0 hy (by norm_num [Line.B]; linarith)
    · exact far_case_diag_high x y _ _ (1) (by norm_num) (by norm_num [Line.A, Line.B]) hd
    · exact far_case_diag_low x y _ _ (1) (by norm_num) (by norm_num [Line.A, Line.B]) hd
  · rw [lerpSq]
    rcases hcull with ⟨hx, hy⟩ | ⟨hx, hy⟩ | hd | hd
    · exact far_case_y_high s x y _ _ hs2 hs0 hy (by norm_num [Line.B]; linarith)
    · exact far_case_x_low s x y _ _ hs2 hs0 hx (by norm_num [Line.A]; linarith)
    · exact far_case_diag_high x y _ _ (-1) (by norm_num) (by norm_num [Line.A, Line.B]) hd
    · exact far_case_diag_low x y _ _ (-1) (by norm_num) (by norm_num [Line.A, Line.B]) hd
  · rw [lerpSq]
    rcases hcull with ⟨hx, hy⟩ | ⟨hx, hy⟩ | hd | hd
    · exact far_case_y_high s x y _ _ hs2 hs0 hy (by norm_num [Line.B])
    · exact far_case_y_low s x y _ _ hs2 hs0 hy (by norm_num [Line.B])
    · exact far_case_bar_high x y _ _ (by norm_num [Line.B]) (by norm_num [Line.A]; linarith) hd
    · exact far_case_bar_low x y _ _ (by norm_num [Line.B]) (by norm_num [Line.A]; linarith) hd

end CullFar

/-! Attainable local coordinates never hit the cull boundary exactly:
an actual pixel has local coordinate q * (6 + sqrt 2 / 2) with q rational,
which cannot equal plus or minus sqrt 2 / 4. -/

theorem logoUnit_comp (size : ℤ) :
    logoUnit size = ⟨12 * (size : ℚ) / 71, -(size : ℚ) / 71⟩ := by
  rw [logoUnit, standardDistance_eq]
  apply Qsqrt2.ext2 <;> simp <;> norm_num <;> ring

theorem logoUnit_inv (size : ℤ) (h : (size : ℚ) ≠ 0) :
    (logoUnit size)⁻¹ = ⟨6 / (size : ℚ), 1 / (2 * (size : ℚ))⟩ := by
  rw [logoUnit_comp]
  have h2 : (12 * (size : ℚ) / 71) ^ 2 - 2 * (-(size : ℚ) / 71) ^ 2 = 2 * (size : ℚ) ^ 2 / 71 := by
    ring
  apply Qsqrt2.ext2 <;> simp only [Qsqrt2.inv_a, Qsqrt2.inv_b, Qsqrt2.mk_a, Qsqrt2.mk_b, h2] <;>
    field_simp <;> ring

theorem logoLocal_rep (size i : ℤ) (h : (size : ℚ) ≠ 0) :
    logoLocal size i =
      ⟨6 * (((i : ℚ) - (size : ℚ) / 2) / (size : ℚ)),
        (((i : ℚ) - (size : ℚ) / 2) / (size : ℚ)) / 2⟩ := by
  rw [logoLocal, div_eq_mul_inv _ (logoUnit size), logoUnit_inv size h]
  apply Qsqrt2.ext2 <;> simp <;> field_simp <;> ring

theorem logoLocal_ne_sd (size i : ℤ) (h : size ≠ 0) :
    logoLocal size i ≠ standardDistance ∧ logoLocal size i ≠ -standardDistance := by
  have hq : (size : ℚ) ≠ 0 := Int.cast_ne_zero.mpr h
  rw [logoLocal_rep size i hq, standardDistance_eq]
  constructor
  · intro heq
    have h1 := congrArg Qsqrt2.a heq
    have h2 := congrArg Qsqrt2.b heq
    simp at h1 h2
    rcases h1 with h1 | h1
    · rw [h1] at h2
      norm_num at h2
    · exact h h1
  · intro heq
    have h1 := congrArg Qsqrt2.a heq
    have h2 := congrArg Qsqrt2.b heq
    simp at h1 h2
    rcases h1 with h1 | h1
    · rw [h1] at h2
      norm_num at h2
    · exact h h1

theorem neg_three_sub_sqrt2SD : (-3 : Qsqrt2) - sqrt2SD = -(7 / 2) := by
  have h := three_add_sqrt2SD
  linear_combination -h

/-- cull_skip_unclaimed: for an actual pixel of the glyph buffer whose local
coordinates satisfy the cull predicate, no line claims the pixel as body or
outline, provided the squared body threshold does not exceed the squared
outline threshold. -/
theorem cull_skip_unclaimed (size px py : ℤ) (t : ℚ) (c1 c2 c3 c4 c5 c6 : Color)
    (hsize : 0 < size)
    (hbd : logoBodyDist2 size t ≤ logoStdDist2 size)
    (hsk : cullSkip standardDistance sqrt2SD (logoLocal size px) (logoLocal size py)) :
    ∀ l ∈ logoLines c1 c2 c3 c4 c5 c6,
      lineClaim l ((logoUnit size) ^ 2) (logoBodyDist2 size t) (logoStdDist2 size)
        (logoLocal size px) (logoLocal size py) = none := by
  set x := logoLocal size px with hx
  set y := logoLocal size py with hy
  obtain ⟨hxs, hxs2⟩ := logoLocal_ne_sd size px hsize.ne'
  obtain ⟨hys, hys2⟩ := logoLocal_ne_sd size py hsize.ne'
  have hcull : (standardDistance < x ∧ standardDistance < y) ∨
      (x < -standardDistance ∧ y < -standardDistance) ∨
      (7 / 2 < x - y) ∨ (x - y < -(7 / 2)) := by
    rcases hsk with ⟨h1, h2⟩ | ⟨h1, h2⟩ | h1 | h1
    · exact Or.inl ⟨h1.lt_of_ne (Ne.symm hxs), h2.lt_of_ne (Ne.symm hys)⟩
    · exact Or.inr (Or.inl ⟨h1.lt_of_ne hxs2, h2.lt_of_ne hys2⟩)
    · rw [three_add_sqrt2SD] at h1
      exact Or.inr (Or.inr (Or.inl h1))
    · rw [neg_three_sub_sqrt2SD] at h1
      exact Or.inr (Or.inr (Or.inr h1))
  have hfar := cull_region_far standardDistance standardDistance_sq standardDistance_pos
    x y c1 c2 c3 c4 c5 c6 hcull
  intro l hl
  have hd := hfar l hl
  have hu2 : (0 : Qsqrt2) < (logoUnit size) ^ 2 := pow_pos (logoUnit_pos hsize) 2
  have hgt : logoStdDist2 size < l.distance2 x y * (logoUnit size) ^ 2 := by
    rw [logoStdDist2_eq, mul_comm ((logoUnit size) ^ 2) (1 / 8)]
    exact mul_lt_mul_of_pos_right hd hu2
  simp only [lineClaim]
  rw [if_neg (by linarith), if_neg (by linarith)]

/-! Claim theorems. -/

/-- lineEx is a sample segment over the rationals used by witnesses: the
segment from (0, 0) to (3, 0). -/
def lineEx : Line ℚ := ⟨0, 0, 3, 0, (255, 255, 255, 255), (0, 0, 0, 255)⟩

/-- Claim C1: for every segment with positive squared length D and every query
point, distance2 returns the exact squared Euclidean distance to the finite
segment: it is a lower bound on the squared distance to every point of the
segment and is attained at some point of the segment; it returns 0 at both
endpoints; when the scalar projection r is at most 0 it equals the squared
distance to the first endpoint, which is then the nearer endpoint; when r is
at least 1 it equals the squared distance to the second endpoint, which is
then the nearer endpoint; otherwise it equals the squared distance to the
interpolated point (x1 + r * A, y1 + r * B), never the infinite-line
projection distance at a clamped parameter. -/
theorem C1_distance2_exact {α : Type} [LinearOrderedField α] (l : Line α)
    (hD : 0 < l.D) (x y : α) :
    (∀ t : α, 0 ≤ t → t ≤ 1 →
      l.distance2 x y ≤ (x - (l.x1 + t * l.A)) ^ 2 + (y - (l.y1 + t * l.B)) ^ 2) ∧
    (∃ t : α, 0 ≤ t ∧ t ≤ 1 ∧
      l.distance2 x y = (x - (l.x1 + t * l.A)) ^ 2 + (y - (l.y1 + t * l.B)) ^ 2) ∧
    l.distance2 l.x1 l.y1 = 0 ∧ l.distance2 l.x2 l.y2 = 0 ∧
    (l.proj x y ≤ 0 →
      l.distance2 x y = (x - l.x1) ^ 2 + (y - l.y1) ^ 2 ∧
      (x - l.x1) ^ 2 + (y - l.y1) ^ 2 ≤ (x - l.x2) ^ 2 + (y - l.y2) ^ 2) ∧
    (1 ≤ l.proj x y →
      l.distance2 x y = (x - l.x2) ^ 2 + (y - l.y2) ^ 2 ∧
      (x - l.x2) ^ 2 + (y - l.y2) ^ 2 ≤ (x - l.x1) ^ 2 + (y - l.y1) ^ 2) ∧
    (0 < l.proj x y → l.proj x y < 1 →
      l.distance2 x y =
        (x - (l.x1 + l.proj x y * l.A)) ^ 2 + (y - (l.y1 + l.proj x y * l.B)) ^ 2) := by
  refine ⟨?_, ?_, distance2_start l, distance2_end l hD.ne', ?_, ?_, ?_⟩
  · intro t ht0 ht1
    exact distance2_le_lerpSq l hD x y t ht0 ht1
  · obtain ⟨t, ht0, ht1, heq⟩ := distance2_exists_rep l x y
    exact ⟨t, ht0, ht1, heq⟩
  · intro h0
    have hstart : l.distance2 x y = lerpSq l 0 x y := by
      rcases distance2_cases l x y with ⟨_, h⟩ | ⟨h1, _⟩ | ⟨h1, _, _⟩
      · exact h
      · linarith
      · linarith
    constructor
    · rw [hstart, lerpSq_zero]
    · have := start_nearer l hD x y h0
      rw [lerpSq_zero, lerpSq_one] at this
      exact this
  · intro h1
    have hend : l.distance2 x y = lerpSq l 1 x y := by
      rcases distance2_cases l x y with ⟨h0, _⟩ | ⟨_, h⟩ | ⟨_, h2, _⟩
      · linarith
      · exact h
      · linarith
    constructor
    · rw [hend, lerpSq_one]
    · have := end_nearer l hD x y h1
      rw [lerpSq_zero, lerpSq_one] at this
      exact this
  · intro h0 h1
    rcases distance2_cases l x y with ⟨h2, _⟩ | ⟨h2, _⟩ | ⟨_, _, h⟩
    · linarith
    · linarith
    · exact h

/-- Witness for C1: the sample segment lineEx from (0, 0) to (3, 0) at the
query point (5, 1), whose projection 5 / 3 is clamped to the endpoint (3, 0);
the distance field evaluates there to 5, the squared distance to (3, 0). -/
theorem C1_witness :
    (lineEx.distance2 5 1 = (5 - lineEx.x2) ^ 2 + (1 - lineEx.y2) ^ 2 ∧
      (5 - lineEx.x2) ^ 2 + (1 - lineEx.y2) ^ 2 ≤ (5 - lineEx.x1) ^ 2 + (1 - lineEx.y1) ^ 2) ∧
    lineEx.distance2 5 1 = 5 := by
  constructor
  · exact (C1_distance2_exact lineEx
      (by norm_num [Line.D, Line.A, Line.B, lineEx]) 5 1).2.2.2.2.2.1
      (by norm_num [Line.proj, Line.A, Line.B, Line.C, Line.D, lineEx])
  · norm_num [Line.distance2, Line.proj, Line.A, Line.B, Line.C, Line.D, lineEx]

/-- Claim C4 as amended: for every positive glyph size and every outline
thickness t with 0 < t and t at most standardDistance * unit (the validated
range the spec demands, body threshold nonnegative), the squared body
threshold is strictly below the squared outline threshold. -/
theorem C4_thresholds (size : ℤ) (t : ℚ) (hsize : 0 < size) (ht : 0 < t)
    (htv : Qsqrt2.ofQ t ≤ standardDistance * logoUnit size) :
    logoBodyDist2 size t < logoStdDist2 size := by
  rw [logoBodyDist2, logoStdDist2]
  set su := standardDistance * logoUnit size with hsu
  have hsupos : 0 < su := mul_pos standardDistance_pos (logoUnit_pos hsize)
  have h1 : 0 ≤ su - Qsqrt2.ofQ t := sub_nonneg.mpr htv
  have h2 : su - Qsqrt2.ofQ t < su := sub_lt_self su (ofQ_pos ht)
  nlinarith [h1, h2, hsupos]

/-- Counterexample to claim C4 as stated: it quantifies over every
outlineThickness of at least 0, but at thickness exactly 0 the two squared
thresholds are equal, not strictly ordered (glyph size 64). -/
theorem C4_counterexample : ¬ (logoBodyDist2 64 0 < logoStdDist2 64) := by
  have heq : logoBodyDist2 64 0 = logoStdDist2 64 := by
    rw [logoBodyDist2, logoStdDist2, ofQ_zero, sub_zero]
  rw [heq]
  exact lt_irrefl _

/-- Witness for C4: glyph size 64 with the default outline thickness 2, which
lies in the validated range. -/
theorem C4_witness : logoBodyDist2 64 2 < logoStdDist2 64 := by
  apply C4_thresholds 64 2 (by norm_num) (by norm_num)
  rw [Qsqrt2.le_def, standardDistance_eq, logoUnit, standardDistance_eq]
  simp [Qsqrt2.Nonneg, Qsqrt2.ofQ, pow_two]
  norm_num

/-- Claim C5: for every pixel of the 2 * radius sided backdrop region, with r2
its squared distance to the center of the region: if r2 is at most
(radius - thickness) ^ 2 the pixel gets the body color, otherwise if r2 is at
most radius ^ 2 it gets the outline color, otherwise it keeps its previous
color; concretely with radius 10, thickness 2, body white and outline black,
the center pixel is body, a pixel at distance 9 is outline, and any pixel at
distance 11 keeps its previous color. -/
theorem C5_circle :
    (∀ (radius : ℤ) (t : ℚ) (body outline : Color) (prev : ℤ → ℤ → Color) (x y : ℤ),
      0 ≤ x → x < 2 * radius → 0 ≤ y → y < 2 * radius →
      ((((x : ℚ) - radius) ^ 2 + ((y : ℚ) - radius) ^ 2 ≤ ((radius : ℚ) - t) ^ 2 →
          circleBuffer radius t body outline prev x y = body) ∧
        (¬ (((x : ℚ) - radius) ^ 2 + ((y : ℚ) - radius) ^ 2 ≤ ((radius : ℚ) - t) ^ 2) →
          ((x : ℚ) - radius) ^ 2 + ((y : ℚ) - radius) ^ 2 ≤ (radius : ℚ) ^ 2 →
          circleBuffer radius t body outline prev x y = outline) ∧
        (¬ (((x : ℚ) - radius) ^ 2 + ((y : ℚ) - radius) ^ 2 ≤ ((radius : ℚ) - t) ^ 2) →
          ¬ (((x : ℚ) - radius) ^ 2 + ((y : ℚ) - radius) ^ 2 ≤ (radius : ℚ) ^ 2) →
          circleBuffer radius t body outline prev x y = prev x y))) ∧
    (∀ prev : ℤ → ℤ → Color,
      circleBuffer 10 2 (255, 255, 255, 255) (0, 0, 0, 255) prev 10 10 = (255, 255, 255, 255)) ∧
    (∀ prev : ℤ → ℤ → Color,
      circleBuffer 10 2 (255, 255, 255, 255) (0, 0, 0, 255) prev 19 10 = (0, 0, 0, 255)) ∧
    (∀ (prev : ℤ → ℤ → Color) (x y : ℤ), ((x : ℚ) - 10) ^ 2 + ((y : ℚ) - 10) ^ 2 = 121 →
      circleBuffer 10 2 (255, 255, 255, 255) (0, 0, 0, 255) prev x y = prev x y) := by
  refine ⟨?_, ?_, ?_, ?_⟩
  · intro radius t body outline prev x y hx0 hx1 hy0 hy1
    have hreg : 0 ≤ x ∧ x < 2 * radius ∧ 0 ≤ y ∧ y < 2 * radius := ⟨hx0, hx1, hy0, hy1⟩
    refine ⟨fun hb => ?_, fun hb ho => ?_, fun hb ho => ?_⟩
    · rw [circleBuffer, if_pos hreg, circlePixel]
      rw [if_pos hb]
    · rw [circleBuffer, if_pos hreg, circlePixel]
      rw [if_neg hb, if_pos ho]
    · rw [circleBuffer, if_pos hreg, circlePixel]
      rw [if_neg hb, if_neg ho]
  · intro prev
    norm_num [circleBuffer, circlePixel]
  · intro prev
    norm_num [circleBuffer, circlePixel]
  · intro prev x y h
    rcases Decidable.em (0 ≤ x ∧ x < 2 * 10 ∧ 0 ≤ y ∧ y < 2 * 10) with hreg | hreg
    · rw [circleBuffer, if_pos hreg, circlePixel]
      rw [if_neg (by norm_num; linarith [h.ge, h.le]), if_neg (by norm_num; linarith [h.ge, h.le])]
    · rw [circleBuffer, if_neg hreg]

/-- Witness for C5: the general trichotomy applied at the center pixel of a
radius 10 backdrop, and the distance 11 clause applied at the pixel (21, 10). -/
theorem C5_witness :
    circleBuffer 10 2 (1, 2, 3, 4) (5, 6, 7, 8) (fun _ _ => (9, 9, 9, 9)) 10 10 = (1, 2, 3, 4) ∧
    circleBuffer 10 2 (255, 255, 255, 255) (0, 0, 0, 255) (fun _ _ => (9, 9, 9, 9)) 21 10
      = (9, 9, 9, 9) := by
  constructor
  · exact (C5_circle.1 10 2 (1, 2, 3, 4) (5, 6, 7, 8) (fun _ _ => (9, 9, 9, 9)) 10 10
      (by norm_num) (by norm_num) (by norm_num) (by norm_num)).1 (by norm_num)
  · exact C5_circle.2.2.2 (fun _ _ => (9, 9, 9, 9)) 21 10 (by norm_num)

/-- Modelled from the spec: validConfig is the validation predicate that
section 7 of the spec requires of a configuration (the source code itself
contains no validation): positive dimensions, both ratios in (0, 1], and an
outline thickness that is nonnegative and keeps the body threshold
standardDistance * unit - thickness nonnegative. -/
def validConfig (c : Config) : Prop :=
  0 < c.width ∧ 0 < c.height ∧
  0 < c.logo_frac ∧ c.logo_frac ≤ 1 ∧ 0 < c.circle_frac ∧ c.circle_frac ≤ 1 ∧
  0 ≤ c.outline_thickness ∧
  Qsqrt2.ofQ c.outline_thickness ≤ standardDistance * logoUnit c.logoSize

/-- cfgBad is a configuration that is invalid in every way the spec lists:
nonpositive width and height, logo ratio above 1, circle ratio above 1, and a
negative outline thickness. -/
def cfgBad : Config :=
  init (-5) (-7) false (3/2) 2 (-1) (0, 0, 0, 255) (1, 1, 1, 255) (1, 1, 1, 255)
    (1, 1, 1, 255) (1, 1, 1, 255) (2, 2, 2, 255) (2, 2, 2, 255) (3, 3, 3, 255) (3, 3, 3, 255)

/-- Claim C9 as amended: the constructor rejects nothing; it stores every
parameter verbatim, whether valid or not, so no validation failure is
surfaced at configuration time.  (What happens to an invalid configuration
later, inside draw, is outside this statement: there the source can raise,
for example at canvas allocation for nonpositive dimensions.) -/
theorem C9_no_validation (w h : ℤ) (u : Bool) (lf cf t : ℚ)
    (bg c1 c2 c3 c4 c5 c6 c7 c8 : Color) :
    (init w h u lf cf t bg c1 c2 c3 c4 c5 c6 c7 c8).width = w ∧
    (init w h u lf cf t bg c1 c2 c3 c4 c5 c6 c7 c8).height = h ∧
    (init w h u lf cf t bg c1 c2 c3 c4 c5 c6 c7 c8).use_round_shape = u ∧
    (init w h u lf cf t bg c1 c2 c3 c4 c5 c6 c7 c8).logo_frac = lf ∧
    (init w h u lf cf t bg c1 c2 c3 c4 c5 c6 c7 c8).circle_frac = cf ∧
    (init w h u lf cf t bg c1 c2 c3 c4 c5 c6 c7 c8).outline_thickness = t ∧
    (init w h u lf cf t bg c1 c2 c3 c4 c5 c6 c7 c8).background_color = bg ∧
    (init w h u lf cf t bg c1 c2 c3 c4 c5 c6 c7 c8).outside_line_body_color = c1 ∧
    (init w h u lf cf t bg c1 c2 c3 c4 c5 c6 c7 c8).outside_line_outline_color = c2 ∧
    (init w h u lf cf t bg c1 c2 c3 c4 c5 c6 c7 c8).inside_line_body_color = c3 ∧
    (init w h u lf cf t bg c1 c2 c3 c4 c5 c6 c7 c8).inside_line_outline_color = c4 ∧
    (init w h u lf cf t bg c1 c2 c3 c4 c5 c6 c7 c8).single_line_body_color = c5 ∧
    (init w h u lf cf t bg c1 c2 c3 c4 c5 c6 c7 c8).single_line_outline_color = c6 ∧
    (init w h u lf cf t bg c1 c2 c3 c4 c5 c6 c7 c8).circle_body_color = c7 ∧
    (init w h u lf cf t bg c1 c2 c3 c4 c5 c6 c7 c8).circle_outline_color = c8 := by
  refine ⟨rfl, rfl, rfl, rfl, rfl, rfl, rfl, rfl, rfl, rfl, rfl, rfl, rfl, rfl, rfl⟩

/-- Counterexample to claim C9 as stated: the configuration cfgBad violates
every validation rule the spec lists, yet the constructor does not reject
it; it stores each invalid parameter verbatim, so no failure is surfaced at
configuration acceptance (for such a configuration the source fails only
later, inside draw, at canvas allocation). -/
theorem C9_counterexample :
    ¬ validConfig cfgBad ∧ cfgBad.width = -5 ∧ cfgBad.height = -7 ∧
    cfgBad.logo_frac = 3/2 ∧ cfgBad.circle_frac = 2 ∧ cfgBad.outline_thickness = -1 := by
  refine ⟨?_, rfl, rfl, rfl, rfl, rfl⟩
  intro hv
  have := hv.1
  norm_num [cfgBad, init] at this

/-- pythonOpenModeOk models the mode validation of the external Python builtin
open, which save_cfg calls: a mode string is accepted exactly when it consists
of the characters r w x a b t + U and contains exactly one of the access
characters r w x a.  The uppercase string W therefore fails the character
check and open raises before creating or writing any file. -/
def pythonOpenModeOk (mode : String) : Bool :=
  mode.toList.all (fun ch => ch ∈ (['r', 'w', 'x', 'a', 'b', 't', '+', 'U'] : List Char)) &&
    (mode.toList.filter (fun ch => ch ∈ (['r', 'w', 'x', 'a'] : List Char))).length == 1

/-- save_cfg mirrors LogoImage.save_cfg: it assembles the parameter dictionary
(represented here by the Config record itself, whose fields are exactly the
keys written) and opens the target path with the given mode, whose default is
the string W; the external open call validates the mode before anything is
written, so an invalid mode raises and nothing is written, modelled by the
error result. -/
def save_cfg (c : Config) (path : String := ("cfg.json")) (mode : String := ("W")) :
    Except String Config :=
  if pythonOpenModeOk mode then Except.ok c else Except.error ("invalid mode: " ++ mode)

/-- Claim C10: calling save_cfg without an explicit mode always errors and
writes nothing, because the default mode W is not a valid open mode; the save
succeeds exactly for valid modes such as w. -/
theorem C10_save_cfg_default_fails :
    (∀ c : Config, save_cfg c = Except.error ("invalid mode: W")) ∧
    pythonOpenModeOk "W" = false ∧ pythonOpenModeOk "w" = true ∧
    (∀ (c : Config) (path mode : String), pythonOpenModeOk mode = true →
      save_cfg c path mode = Except.ok c) ∧
    (∀ (c : Config) (path mode : String), pythonOpenModeOk mode = false →
      save_cfg c path mode = Except.error ("invalid mode: " ++ mode)) := by
  have hW : pythonOpenModeOk "W" = false := by decide
  refine ⟨?_, hW, by decide, ?_, ?_⟩
  · intro c
    rw [save_cfg, if_neg]
    · rfl
    · rw [hW]
      exact Bool.false_ne_true
  · intro c _path mode h
    rw [save_cfg, if_pos]
    exact h
  · intro c _path mode h
    rw [save_cfg, if_neg]
    rw [h]
    exact Bool.false_ne_true

/-- Witness for C10: the save succeeds with the valid mode w and fails with
the invalid default W on a concrete configuration. -/
theorem C10_witness :
    save_cfg cfgBad "cfg.json" "w" = Except.ok cfgBad ∧
    save_cfg cfgBad "cfg.json" "W" = Except.error ("invalid mode: W") := by
  constructor
  · exact C10_save_cfg_default_fails.2.2.2.1 cfgBad "cfg.json" "w" (by decide)
  · exact C10_save_cfg_default_fails.2.2.2.2 cfgBad "cfg.json" "W" (by decide)

/-- Claim C2: the five segments are scanned in the fixed logoLines order and
the first segment whose body or outline claims a pixel decides its color, no
later segment being examined (first conjunct, for an arbitrary split of the
list).  The second conjunct shows that the outline band of an outside
diagonal and the body of an inside diagonal are disjoint: the strokes sit
sqrt 2 apart in local units while each band reaches only sqrt 2 / 4 from its
segment, so the overlap the claim speaks about is empty and its consequent
(third conjunct) holds: any pixel in both regions would be painted the
outside outline color. -/
theorem C2_priority :
    (∀ (pre post : List (Line Qsqrt2)) (l : Line Qsqrt2) (u2 b2 s2 x y : Qsqrt2)
      (col : Color),
      (∀ l2 ∈ pre, lineClaim l2 u2 b2 s2 x y = none) →
      lineClaim l u2 b2 s2 x y = some col →
      classifyLines (pre ++ l :: post) u2 b2 s2 x y = some col) ∧
    (∀ (x y : Qsqrt2) (co1 co2 ci1 ci2 : Color) (o i : Line Qsqrt2),
      (o = ⟨-3, 0, 0, 3, co1, co2⟩ ∨ o = ⟨3, 0, 0, -3, co1, co2⟩) →
      (i = ⟨-1, 0, 0, 1, ci1, ci2⟩ ∨ i = ⟨1, 0, 0, -1, ci1, ci2⟩) →
      o.distance2 x y ≤ 1 / 8 → 1 / 8 < i.distance2 x y) ∧
    (∀ (size : ℤ) (t : ℚ) (olb olo ilb ilo slb slo : Color) (x y : Qsqrt2)
      (o i : Line Qsqrt2),
      0 < size →
      logoBodyDist2 size t ≤ logoStdDist2 size →
      (o = ⟨-3, 0, 0, 3, olb, olo⟩ ∨ o = ⟨3, 0, 0, -3, olb, olo⟩) →
      (i = ⟨-1, 0, 0, 1, ilb, ilo⟩ ∨ i = ⟨1, 0, 0, -1, ilb, ilo⟩) →
      o.distance2 x y * (logoUnit size) ^ 2 ≤ logoStdDist2 size →
      i.distance2 x y * (logoUnit size) ^ 2 ≤ logoBodyDist2 size t →
      classifyLines (logoLines olb olo ilb ilo slb slo) ((logoUnit size) ^ 2)
        (logoBodyDist2 size t) (logoStdDist2 size) x y = some olo) := by
  refine ⟨?_, ?_, ?_⟩
  · intro pre post l u2 b2 s2 x y col hpre hl
    exact classifyLines_first_match pre post l u2 b2 s2 x y col hpre hl
  · intro x y co1 co2 ci1 ci2 o i ho hi hod
    exact outside_inside_sep x y co1 co2 ci1 ci2 o i ho hi hod
  · intro size t olb olo ilb ilo slb slo x y o i hsize hbd ho hi hod hid
    exfalso
    have hu2 : (0 : Qsqrt2) < (logoUnit size) ^ 2 := pow_pos (logoUnit_pos hsize) 2
    have hsd : logoStdDist2 size = 1 / 8 * (logoUnit size) ^ 2 := by
      rw [logoStdDist2_eq]
      ring
    have hod8 : o.distance2 x y ≤ 1 / 8 := by
      have h1 : o.distance2 x y * (logoUnit size) ^ 2 ≤ 1 / 8 * (logoUnit size) ^ 2 := by
        rw [← hsd]
        exact hod
      exact le_of_mul_le_mul_right h1 hu2
    have hid8 : i.distance2 x y ≤ 1 / 8 := by
      have h1 : i.distance2 x y * (logoUnit size) ^ 2 ≤ 1 / 8 * (logoUnit size) ^ 2 := by
        rw [← hsd]
        exact le_trans hid hbd
      exact le_of_mul_le_mul_right h1 hu2
    have := outside_inside_sep x y olb olo ilb ilo o i ho hi hod8
    linarith

/-- Witness for C2: with unit 1, body threshold 1 / 100 and outline threshold
1 / 8, the pixel (-1/2, 1/2) lies on the first inside diagonal; neither
outside diagonal claims it, so the first-match scan of the full logoLines
list stops at the inside body color; and the separation clause applied at the
left endpoint of the first outside diagonal. -/
theorem C2_witness :
    classifyLines (logoLines (1, 1, 1, 1) (2, 2, 2, 2) (3, 3, 3, 3) (4, 4, 4, 4)
        (5, 5, 5, 5) (6, 6, 6, 6) : List (Line Qsqrt2)) 1 (1 / 100) (1 / 8)
        (⟨-1/2, 0⟩ : Qsqrt2) (⟨1/2, 0⟩ : Qsqrt2)
      = some (3, 3, 3, 3) ∧
    1 / 8 < Line.distance2 (⟨-1, 0, 0, 1, (3, 3, 3, 3), (4, 4, 4, 4)⟩ : Line Qsqrt2) (-3) 0 := by
  constructor
  · exact C2_priority.1
      [⟨-3, 0, 0, 3, (1, 1, 1, 1), (2, 2, 2, 2)⟩, ⟨3, 0, 0, -3, (1, 1, 1, 1), (2, 2, 2, 2)⟩]
      [⟨1, 0, 0, -1, (3, 3, 3, 3), (4, 4, 4, 4)⟩, ⟨3, 0, -3, 0, (5, 5, 5, 5), (6, 6, 6, 6)⟩]
      ⟨-1, 0, 0, 1, (3, 3, 3, 3), (4, 4, 4, 4)⟩ 1 (1 / 100) (1 / 8)
      (⟨-1/2, 0⟩ : Qsqrt2) (⟨1/2, 0⟩ : Qsqrt2) (3, 3, 3, 3)
      (by
        intro l2 h2
        simp only [List.mem_cons, List.not_mem_nil, or_false] at h2
        rcases h2 with rfl | rfl
        · norm_num [lineClaim, Line.distance2, Line.proj, Line.A, Line.B, Line.C, Line.D,
            Qsqrt2.le_def, Qsqrt2.lt_def, Qsqrt2.Nonneg, pow_two]
        · norm_num [lineClaim, Line.distance2, Line.proj, Line.A, Line.B, Line.C, Line.D,
            Qsqrt2.le_def, Qsqrt2.lt_def, Qsqrt2.Nonneg, pow_two])
      (by
        norm_num [lineClaim, Line.distance2, Line.proj, Line.A, Line.B, Line.C, Line.D,
          Qsqrt2.le_def, Qsqrt2.lt_def, Qsqrt2.Nonneg, pow_two])
  · exact C2_priority.2.1 (-3) 0 (1, 1, 1, 1) (2, 2, 2, 2) (3, 3, 3, 3) (4, 4, 4, 4)
      ⟨-3, 0, 0, 3, (1, 1, 1, 1), (2, 2, 2, 2)⟩ ⟨-1, 0, 0, 1, (3, 3, 3, 3), (4, 4, 4, 4)⟩
      (Or.inl rfl) (Or.inl rfl)
      (by
        norm_num [Line.distance2, Line.proj, Line.A, Line.B, Line.C, Line.D,
          Qsqrt2.le_def, Qsqrt2.lt_def, Qsqrt2.Nonneg, pow_two])

theorem logoPixel_def (size : ℤ) (t : ℚ) (olb olo ilb ilo slb slo prev : Color)
    (px py : ℤ) :
    logoPixel size t olb olo ilb ilo slb slo prev px py =
      (if cullPass standardDistance sqrt2SD (logoLocal size px) (logoLocal size py) then
        match classifyLines (logoLines olb olo ilb ilo slb slo) ((logoUnit size) ^ 2)
            (logoBodyDist2 size t) (logoStdDist2 size) (logoLocal size px)
            (logoLocal size py) with
        | some c => c
        | none => prev
      else prev) := rfl

theorem logoPixelUnculled_def (size : ℤ) (t : ℚ) (olb olo ilb ilo slb slo prev : Color)
    (px py : ℤ) :
    logoPixelUnculled size t olb olo ilb ilo slb slo prev px py =
      (match classifyLines (logoLines olb olo ilb ilo slb slo) ((logoUnit size) ^ 2)
          (logoBodyDist2 size t) (logoStdDist2 size) (logoLocal size px)
          (logoLocal size py) with
      | some c => c
      | none => prev) := rfl

theorem lineClaim_def {α : Type} [LinearOrderedField α] (l : Line α) (unit2 bd2 sd2 x y : α) :
    lineClaim l unit2 bd2 sd2 x y =
      (if l.distance2 x y * unit2 ≤ bd2 then some (l.body_color)
      else if l.distance2 x y * unit2 ≤ sd2 then some (l.outline_color)
      else none) := rfl

theorem classifyLines_cons {α : Type} [LinearOrderedField α] (l : Line α) (ls : List (Line α))
    (u2 bd2 sd2 x y : α) :
    classifyLines (l :: ls) u2 bd2 sd2 x y =
      (match lineClaim l u2 bd2 sd2 x y with
      | some c => some c
      | none => classifyLines ls u2 bd2 sd2 x y) := rfl

/-- Claim C3 as amended: with a validated outline thickness (squared body
threshold at most the squared outline threshold), the rasterizer with the
cull fast-path is pixel-for-pixel identical to the rasterizer without it,
because every actual pixel whose local coordinates satisfy the cull
predicate is claimed by no segment, as body or as outline.  The claim as
frozen quantifies over every outline thickness; the counterexample below
shows it fails for an oversized thickness, so the thickness bound here is
the amendment. -/
theorem C3_cull_equivalence (size px py : ℤ) (t : ℚ) (olb olo ilb ilo slb slo : Color)
    (prev : Color) (hsize : 0 < size)
    (hbd : logoBodyDist2 size t ≤ logoStdDist2 size) :
    logoPixel size t olb olo ilb ilo slb slo prev px py
      = logoPixelUnculled size t olb olo ilb ilo slb slo prev px py ∧
    (cullSkip standardDistance sqrt2SD (logoLocal size px) (logoLocal size py) →
      ∀ l ∈ logoLines olb olo ilb ilo slb slo,
        lineClaim l ((logoUnit size) ^ 2) (logoBodyDist2 size t) (logoStdDist2 size)
          (logoLocal size px) (logoLocal size py) = none) := by
  have hpart2 : cullSkip standardDistance sqrt2SD (logoLocal size px) (logoLocal size py) →
      ∀ l ∈ logoLines olb olo ilb ilo slb slo,
        lineClaim l ((logoUnit size) ^ 2) (logoBodyDist2 size t) (logoStdDist2 size)
          (logoLocal size px) (logoLocal size py) = none :=
    fun hsk => cull_skip_unclaimed size px py t olb olo ilb ilo slb slo hsize hbd hsk
  refine ⟨?_, hpart2⟩
  by_cases hsk : cullSkip standardDistance sqrt2SD (logoLocal size px) (logoLocal size py)
  · have hnone := classifyLines_all_none (logoLines olb olo ilb ilo slb slo)
      ((logoUnit size) ^ 2) (logoBodyDist2 size t) (logoStdDist2 size)
      (logoLocal size px) (logoLocal size py) (hpart2 hsk)
    rw [logoPixel_def, logoPixelUnculled_def, hnone,
      if_neg (fun hp => (cullPass_iff_not_skip standardDistance sqrt2SD
        (logoLocal size px) (logoLocal size py)).mp hp hsk)]
  · rw [logoPixel_def, logoPixelUnculled_def,
      if_pos ((cullPass_iff_not_skip standardDistance sqrt2SD
        (logoLocal size px) (logoLocal size py)).mpr hsk)]

/-- Counterexample to claim C3 as stated: with glyph size 64 and outline
thickness 1000 the pixel (0, 0) is skipped by the cull, yet the very first
segment claims it as body, so rendering with the cull (previous color kept)
differs from rendering without it (outside body color painted). -/
theorem C3_counterexample :
    cullSkip standardDistance sqrt2SD (logoLocal 64 0) (logoLocal 64 0) ∧
    lineClaim (⟨-3, 0, 0, 3, (1, 1, 1, 1), (2, 2, 2, 2)⟩ : Line Qsqrt2) ((logoUnit 64) ^ 2)
      (logoBodyDist2 64 1000) (logoStdDist2 64) (logoLocal 64 0) (logoLocal 64 0)
      = some (1, 1, 1, 1) ∧
    logoPixel 64 1000 (1, 1, 1, 1) (2, 2, 2, 2) (3, 3, 3, 3) (4, 4, 4, 4) (5, 5, 5, 5)
      (6, 6, 6, 6) (9, 9, 9, 9) 0 0 = (9, 9, 9, 9) ∧
    logoPixelUnculled 64 1000 (1, 1, 1, 1) (2, 2, 2, 2) (3, 3, 3, 3) (4, 4, 4, 4)
      (5, 5, 5, 5) (6, 6, 6, 6) (9, 9, 9, 9) 0 0 = (1, 1, 1, 1) := by
  have hloc : logoLocal 64 0 = ⟨-3, -1/4⟩ := by
    rw [logoLocal_rep 64 0 (by norm_num)]
    apply Qsqrt2.ext2 <;> norm_num
  have hu2 : (logoUnit 64) ^ 2 = ⟨598016/5041, -98304/5041⟩ := by
    rw [pow_two, logoUnit_comp]
    apply Qsqrt2.ext2 <;> norm_num
  have hbd2 : logoBodyDist2 64 1000 = ⟨5045618752/5041, -27276288/5041⟩ := by
    rw [logoBodyDist2, pow_two, logoUnit_comp, standardDistance_eq]
    apply Qsqrt2.ext2 <;> simp [Qsqrt2.ofQ] <;> norm_num
  have hdist : Line.distance2 (⟨-3, 0, 0, 3, (1, 1, 1, 1), (2, 2, 2, 2)⟩ : Line Qsqrt2)
      ⟨-3, -1/4⟩ ⟨-3, -1/4⟩ = ⟨37/4, 3/2⟩ := by
    rw [Line.distance2_eq]
    have hproj : Line.proj (⟨-3, 0, 0, 3, (1, 1, 1, 1), (2, 2, 2, 2)⟩ : Line Qsqrt2)
        ⟨-3, -1/4⟩ ⟨-3, -1/4⟩ = ⟨-1/2, -1/12⟩ := by
      rw [Line.proj]
      norm_num [Line.A, Line.B, Line.C, Line.D]
      apply Qsqrt2.ext2 <;> norm_num
    rw [hproj, if_pos]
    · apply Qsqrt2.ext2 <;> norm_num [pow_two]
    · rw [Qsqrt2.le_def]
      norm_num [Qsqrt2.Nonneg]
  have hsk : cullSkip standardDistance sqrt2SD (logoLocal 64 0) (logoLocal 64 0) := by
    rw [hloc]
    refine Or.inr (Or.inl ⟨?_, ?_⟩) <;>
      (rw [standardDistance_eq, Qsqrt2.le_def]; norm_num [Qsqrt2.Nonneg])
  have hclaim : lineClaim (⟨-3, 0, 0, 3, (1, 1, 1, 1), (2, 2, 2, 2)⟩ : Line Qsqrt2)
      ((logoUnit 64) ^ 2) (logoBodyDist2 64 1000) (logoStdDist2 64) (logoLocal 64 0)
      (logoLocal 64 0) = some (1, 1, 1, 1) := by
    rw [lineClaim_def, hloc, hu2, hbd2, hdist, if_pos]
    rw [Qsqrt2.le_def]
    refine Or.inr (Or.inl ⟨?_, ?_, ?_⟩) <;> norm_num [pow_two]
  refine ⟨hsk, hclaim, ?_, ?_⟩
  · rw [logoPixel_def,
      if_neg (fun hp => (cullPass_iff_not_skip standardDistance sqrt2SD
        (logoLocal 64 0) (logoLocal 64 0)).mp hp hsk)]
  · have hlines : logoLines (1, 1, 1, 1) (2, 2, 2, 2) (3, 3, 3, 3) (4, 4, 4, 4) (5, 5, 5, 5)
        (6, 6, 6, 6) = (⟨-3, 0, 0, 3, (1, 1, 1, 1), (2, 2, 2, 2)⟩ : Line Qsqrt2) ::
          [⟨3, 0, 0, -3, (1, 1, 1, 1), (2, 2, 2, 2)⟩, ⟨-1, 0, 0, 1, (3, 3, 3, 3), (4, 4, 4, 4)⟩,
           ⟨1, 0, 0, -1, (3, 3, 3, 3), (4, 4, 4, 4)⟩,
           ⟨3, 0, -3, 0, (5, 5, 5, 5), (6, 6, 6, 6)⟩] := rfl
    rw [logoPixelUnculled_def, hlines, classifyLines_cons, hclaim]

/-- Witness for C3: glyph size 64 with the default thickness 2 at pixel
(0, 0), which the cull skips; with and without the cull the pixel keeps its
previous color and no segment claims it. -/
theorem C3_witness :
    logoPixel 64 2 (1, 1, 1, 1) (2, 2, 2, 2) (3, 3, 3, 3) (4, 4, 4, 4) (5, 5, 5, 5)
      (6, 6, 6, 6) (9, 9, 9, 9) 0 0
      = logoPixelUnculled 64 2 (1, 1, 1, 1) (2, 2, 2, 2) (3, 3, 3, 3) (4, 4, 4, 4)
        (5, 5, 5, 5) (6, 6, 6, 6) (9, 9, 9, 9) 0 0 ∧
    (∀ l ∈ logoLines (1, 1, 1, 1) (2, 2, 2, 2) (3, 3, 3, 3) (4, 4, 4, 4) (5, 5, 5, 5)
        (6, 6, 6, 6),
      lineClaim l ((logoUnit 64) ^ 2) (logoBodyDist2 64 2) (logoStdDist2 64)
        (logoLocal 64 0) (logoLocal 64 0) = none) := by
  have hsd2 : logoStdDist2 64 = ⟨74752/5041, -12288/5041⟩ := by
    rw [logoStdDist2, pow_two, logoUnit_comp, standardDistance_eq]
    apply Qsqrt2.ext2 <;> norm_num
  have hbd2 : logoBodyDist2 64 2 = ⟨104004/5041, -66816/5041⟩ := by
    rw [logoBodyDist2, pow_two, logoUnit_comp, standardDistance_eq]
    apply Qsqrt2.ext2 <;> simp [Qsqrt2.ofQ] <;> norm_num
  have hbd : logoBodyDist2 64 2 ≤ logoStdDist2 64 := by
    rw [hbd2, hsd2, Qsqrt2.le_def]
    norm_num [Qsqrt2.Nonneg, pow_two]
  have hloc : logoLocal 64 0 = ⟨-3, -1/4⟩ := by
    rw [logoLocal_rep 64 0 (by norm_num)]
    apply Qsqrt2.ext2 <;> norm_num
  have hsk : cullSkip standardDistance sqrt2SD (logoLocal 64 0) (logoLocal 64 0) := by
    rw [hloc]
    refine Or.inr (Or.inl ⟨?_, ?_⟩) <;>
      (rw [standardDistance_eq, Qsqrt2.le_def]; norm_num [Qsqrt2.Nonneg])
  exact ⟨(C3_cull_equivalence 64 0 0 2 (1, 1, 1, 1) (2, 2, 2, 2) (3, 3, 3, 3) (4, 4, 4, 4)
      (5, 5, 5, 5) (6, 6, 6, 6) (9, 9, 9, 9) (by norm_num) hbd).1,
    (C3_cull_equivalence 64 0 0 2 (1, 1, 1, 1) (2, 2, 2, 2) (3, 3, 3, 3) (4, 4, 4, 4)
      (5, 5, 5, 5) (6, 6, 6, 6) (9, 9, 9, 9) (by norm_num) hbd).2 hsk⟩

/-! Helper equations unfolding the draw pipeline definitions, and concrete
evaluations of the rasterizer at individual pixels, used by the scenario
claims below. -/

theorem circlePixel_def (radius : ℤ) (t : ℚ) (body outline prev : Color) (lx ly : ℤ) :
    circlePixel radius t body outline prev lx ly =
      (if ((lx : ℚ) - (radius : ℚ)) ^ 2 + ((ly : ℚ) - (radius : ℚ)) ^ 2
          ≤ ((radius : ℚ) - t) ^ 2 then body
      else if ((lx : ℚ) - (radius : ℚ)) ^ 2 + ((ly : ℚ) - (radius : ℚ)) ^ 2
          ≤ (radius : ℚ) ^ 2 then outline
      else prev) := rfl

theorem afterCircle_def (c : Config) (x y : ℤ) :
    c.afterCircle x y =
      (if c.use_round_shape = true ∧ c.circleStartX ≤ x ∧
          x < c.circleStartX + 2 * c.circleRadius ∧
          c.circleStartY ≤ y ∧ y < c.circleStartY + 2 * c.circleRadius then
        circlePixel c.circleRadius c.outline_thickness c.circle_body_color
          c.circle_outline_color c.background_color (x - c.circleStartX) (y - c.circleStartY)
      else c.background_color) := rfl

theorem logoTensor_def (c : Config) (i j : ℤ) :
    c.logoTensor i j = logoPixel c.logoSize c.outline_thickness c.outside_line_body_color
      c.outside_line_outline_color c.inside_line_body_color c.inside_line_outline_color
      c.single_line_body_color c.single_line_outline_color
      (c.afterCircle (c.logoStartX + i) (c.logoStartY + j)) i j := rfl

theorem drawValue_def (c : Config) (x y : ℤ) :
    c.drawValue x y =
      (if c.logoStartX ≤ x ∧ x < c.logoStartX + c.logoSize ∧
          c.logoStartY ≤ y ∧ y < c.logoStartY + c.logoSize then
        c.logoTensor (y - c.logoStartY) (c.logoSize - 1 - (x - c.logoStartX))
      else c.afterCircle x y) := rfl

theorem logoLines_eq (olb olo ilb ilo slb slo : Color) :
    (logoLines olb olo ilb ilo slb slo : List (Line Qsqrt2)) =
      [⟨-3, 0, 0, 3, olb, olo⟩, ⟨3, 0, 0, -3, olb, olo⟩, ⟨-1, 0, 0, 1, ilb, ilo⟩,
       ⟨1, 0, 0, -1, ilb, ilo⟩, ⟨3, 0, -3, 0, slb, slo⟩] := rfl

theorem classifyLines_cons_none {α : Type} [LinearOrderedField α] (l : Line α)
    (ls : List (Line α)) (u2 bd2 sd2 x y : α)
    (h : lineClaim l u2 bd2 sd2 x y = none) :
    classifyLines (l :: ls) u2 bd2 sd2 x y = classifyLines ls u2 bd2 sd2 x y := by
  rw [classifyLines_cons, h]

theorem classifyLines_cons_some {α : Type} [LinearOrderedField α] (l : Line α)
    (ls : List (Line α)) (u2 bd2 sd2 x y : α) (col : Color)
    (h : lineClaim l u2 bd2 sd2 x y = some col) :
    classifyLines (l :: ls) u2 bd2 sd2 x y = some col := by
  rw [classifyLines_cons, h]

theorem sqrt2SD_mk : sqrt2SD = ⟨1/2, 0⟩ := by
  rw [sqrt2SD_eq]
  apply Qsqrt2.ext2 <;> norm_num

theorem u2_64 : (logoUnit 64) ^ 2 = ⟨598016/5041, -98304/5041⟩ := by
  rw [pow_two, logoUnit_comp]
  apply Qsqrt2.ext2 <;> norm_num

theorem sd2_64 : logoStdDist2 64 = ⟨74752/5041, -12288/5041⟩ := by
  rw [logoStdDist2, pow_two, logoUnit_comp, standardDistance_eq]
  apply Qsqrt2.ext2 <;> norm_num

theorem bd2_64t2 : logoBodyDist2 64 2 = ⟨104004/5041, -66816/5041⟩ := by
  rw [logoBodyDist2, pow_two, logoUnit_comp, standardDistance_eq]
  apply Qsqrt2.ext2 <;> simp [Qsqrt2.ofQ] <;> norm_num

theorem loc64_0 : logoLocal 64 0 = ⟨-3, -1/4⟩ := by
  rw [logoLocal_rep 64 0 (by norm_num)]
  apply Qsqrt2.ext2 <;> norm_num

theorem loc64_5 : logoLocal 64 5 = ⟨-81/32, -27/128⟩ := by
  rw [logoLocal_rep 64 5 (by norm_num)]
  apply Qsqrt2.ext2 <;> norm_num

theorem loc64_31 : logoLocal 64 31 = ⟨-3/32, -1/128⟩ := by
  rw [logoLocal_rep 64 31 (by norm_num)]
  apply Qsqrt2.ext2 <;> norm_num

theorem loc64_32 : logoLocal 64 32 = ⟨0, 0⟩ := by
  rw [logoLocal_rep 64 32 (by norm_num)]
  apply Qsqrt2.ext2 <;> norm_num

theorem loc64_63 : logoLocal 64 63 = ⟨93/32, 31/128⟩ := by
  rw [logoLocal_rep 64 63 (by norm_num)]
  apply Qsqrt2.ext2 <;> norm_num

theorem loc40_0 : logoLocal 40 0 = ⟨-3, -1/4⟩ := by
  rw [logoLocal_rep 40 0 (by norm_num)]
  apply Qsqrt2.ext2 <;> norm_num

theorem loc40_4 : logoLocal 40 4 = ⟨-12/5, -1/5⟩ := by
  rw [logoLocal_rep 40 4 (by norm_num)]
  apply Qsqrt2.ext2 <;> norm_num

theorem loc40_33 : logoLocal 40 33 = ⟨39/20, 13/80⟩ := by
  rw [logoLocal_rep 40 33 (by norm_num)]
  apply Qsqrt2.ext2 <;> norm_num

theorem loc40_35 : logoLocal 40 35 = ⟨9/4, 3/16⟩ := by
  rw [logoLocal_rep 40 35 (by norm_num)]
  apply Qsqrt2.ext2 <;> norm_num

theorem loc40_39 : logoLocal 40 39 = ⟨57/20, 19/80⟩ := by
  rw [logoLocal_rep 40 39 (by norm_num)]
  apply Qsqrt2.ext2 <;> norm_num

theorem skip64_0_63 : cullSkip standardDistance sqrt2SD (logoLocal 64 0) (logoLocal 64 63) := by
  rw [loc64_0, loc64_63]
  simp only [cullSkip, standardDistance_eq, sqrt2SD_mk, Qsqrt2.le_def, Qsqrt2.lt_def,
    Qsqrt2.Nonneg]
  norm_num [pow_two]

theorem skip64_63_63 : cullSkip standardDistance sqrt2SD (logoLocal 64 63) (logoLocal 64 63) := by
  rw [loc64_63]
  simp only [cullSkip, standardDistance_eq, sqrt2SD_mk, Qsqrt2.le_def, Qsqrt2.lt_def,
    Qsqrt2.Nonneg]
  norm_num [pow_two]

theorem skip64_0_0c : cullSkip standardDistance sqrt2SD (logoLocal 64 0) (logoLocal 64 0) := by
  rw [loc64_0]
  simp only [cullSkip, standardDistance_eq, sqrt2SD_mk, Qsqrt2.le_def, Qsqrt2.lt_def,
    Qsqrt2.Nonneg]
  norm_num [pow_two]

theorem skip64_63_0 : cullSkip standardDistance sqrt2SD (logoLocal 64 63) (logoLocal 64 0) := by
  rw [loc64_63, loc64_0]
  simp only [cullSkip, standardDistance_eq, sqrt2SD_mk, Qsqrt2.le_def, Qsqrt2.lt_def,
    Qsqrt2.Nonneg]
  norm_num [pow_two]

theorem skip40_33_35 : cullSkip standardDistance sqrt2SD (logoLocal 40 33) (logoLocal 40 35) := by
  rw [loc40_33, loc40_35]
  simp only [cullSkip, standardDistance_eq, sqrt2SD_mk, Qsqrt2.le_def, Qsqrt2.lt_def,
    Qsqrt2.Nonneg]
  norm_num [pow_two]

theorem skip40_0_39 : cullSkip standardDistance sqrt2SD (logoLocal 40 0) (logoLocal 40 39) := by
  rw [loc40_0, loc40_39]
  simp only [cullSkip, standardDistance_eq, sqrt2SD_mk, Qsqrt2.le_def, Qsqrt2.lt_def,
    Qsqrt2.Nonneg]
  norm_num [pow_two]

theorem skip40_4_33 : cullSkip standardDistance sqrt2SD (logoLocal 40 4) (logoLocal 40 33) := by
  rw [loc40_4, loc40_33]
  simp only [cullSkip, standardDistance_eq, sqrt2SD_mk, Qsqrt2.le_def, Qsqrt2.lt_def,
    Qsqrt2.Nonneg]
  norm_num [pow_two]

theorem pass64_32_31 : cullPass standardDistance sqrt2SD (logoLocal 64 32) (logoLocal 64 31) := by
  rw [loc64_32, loc64_31]
  simp only [cullPass, standardDistance_eq, sqrt2SD_mk, Qsqrt2.le_def, Qsqrt2.lt_def,
    Qsqrt2.Nonneg]
  norm_num [pow_two]

theorem pass64_5_31 : cullPass standardDistance sqrt2SD (logoLocal 64 5) (logoLocal 64 31) := by
  rw [loc64_5, loc64_31]
  simp only [cullPass, standardDistance_eq, sqrt2SD_mk, Qsqrt2.le_def, Qsqrt2.lt_def,
    Qsqrt2.Nonneg]
  norm_num [pow_two]

theorem pass64_32_5 : cullPass standardDistance sqrt2SD (logoLocal 64 32) (logoLocal 64 5) := by
  rw [loc64_32, loc64_5]
  simp only [cullPass, standardDistance_eq, sqrt2SD_mk, Qsqrt2.le_def, Qsqrt2.lt_def,
    Qsqrt2.Nonneg]
  norm_num [pow_two]

theorem lc6_l1 (bc oc : Color) :
    lineClaim (⟨-3, 0, 0, 3, bc, oc⟩ : Line Qsqrt2) ((logoUnit 64) ^ 2) (logoBodyDist2 64 2)
      (logoStdDist2 64) (logoLocal 64 32) (logoLocal 64 31) = none := by
  have hp : Line.proj (⟨-3, 0, 0, 3, bc, oc⟩ : Line Qsqrt2) ⟨0, 0⟩ ⟨-3/32, -1/128⟩ = ⟨31/64, -1/768⟩ := by
    rw [Line.proj]
    apply Qsqrt2.ext2 <;> norm_num [Line.A, Line.B, Line.C, Line.D]
  have hd : Line.distance2 (⟨-3, 0, 0, 3, bc, oc⟩ : Line Qsqrt2) ⟨0, 0⟩ ⟨-3/32, -1/128⟩ = ⟨78409/16384, 99/4096⟩ := by
    rw [Line.distance2_eq, hp,
      if_neg (show ¬ (⟨31/64, -1/768⟩ : Qsqrt2) ≤ 0 by
        rw [Qsqrt2.le_def]; norm_num [Qsqrt2.Nonneg, pow_two]),
      if_neg (show ¬ (1 : Qsqrt2) ≤ ⟨31/64, -1/768⟩ by
        rw [Qsqrt2.le_def]; norm_num [Qsqrt2.Nonneg, pow_two])]
    apply Qsqrt2.ext2 <;> norm_num [Line.A, Line.B, pow_two]
  rw [loc64_32, loc64_31, u2_64, bd2_64t2, sd2_64, lineClaim_def, hd,
    if_neg (show ¬ (⟨78409/16384, 99/4096⟩ : Qsqrt2) * ⟨598016/5041, -98304/5041⟩ ≤ ⟨104004/5041, -66816/5041⟩ by
      rw [Qsqrt2.le_def]; norm_num [Qsqrt2.Nonneg, pow_two]),
    if_neg (show ¬ (⟨78409/16384, 99/4096⟩ : Qsqrt2) * ⟨598016/5041, -98304/5041⟩ ≤ ⟨74752/5041, -12288/5041⟩ by
      rw [Qsqrt2.le_def]; norm_num [Qsqrt2.Nonneg, pow_two])]

theorem lc6_l2 (bc oc : Color) :
    lineClaim (⟨3, 0, 0, -3, bc, oc⟩ : Line Qsqrt2) ((logoUnit 64) ^ 2) (logoBodyDist2 64 2)
      (logoStdDist2 64) (logoLocal 64 32) (logoLocal 64 31) = none := by
  have hp : Line.proj (⟨3, 0, 0, -3, bc, oc⟩ : Line Qsqrt2) ⟨0, 0⟩ ⟨-3/32, -1/128⟩ = ⟨33/64, 1/768⟩ := by
    rw [Line.proj]
    apply Qsqrt2.ext2 <;> norm_num [Line.A, Line.B, Line.C, Line.D]
  have hd : Line.distance2 (⟨3, 0, 0, -3, bc, oc⟩ : Line Qsqrt2) ⟨0, 0⟩ ⟨-3/32, -1/128⟩ = ⟨69193/16384, -93/4096⟩ := by
    rw [Line.distance2_eq, hp,
      if_neg (show ¬ (⟨33/64, 1/768⟩ : Qsqrt2) ≤ 0 by
        rw [Qsqrt2.le_def]; norm_num [Qsqrt2.Nonneg, pow_two]),
      if_neg (show ¬ (1 : Qsqrt2) ≤ ⟨33/64, 1/768⟩ by
        rw [Qsqrt2.le_def]; norm_num [Qsqrt2.Nonneg, pow_two])]
    apply Qsqrt2.ext2 <;> norm_num [Line.A, Line.B, pow_two]
  rw [loc64_32, loc64_31, u2_64, bd2_64t2, sd2_64, lineClaim_def, hd,
    if_neg (show ¬ (⟨69193/16384, -93/4096⟩ : Qsqrt2) * ⟨598016/5041, -98304/5041⟩ ≤ ⟨104004/5041, -66816/5041⟩ by
      rw [Qsqrt2.le_def]; norm_num [Qsqrt2.Nonneg, pow_two]),
    if_neg (show ¬ (⟨69193/16384, -93/4096⟩ : Qsqrt2) * ⟨598016/5041, -98304/5041⟩ ≤ ⟨74752/5041, -12288/5041⟩ by
      rw [Qsqrt2.le_def]; norm_num [Qsqrt2.Nonneg, pow_two])]

theorem lc6_l3 (bc oc : Color) :
    lineClaim (⟨-1, 0, 0, 1, bc, oc⟩ : Line Qsqrt2) ((logoUnit 64) ^ 2) (logoBodyDist2 64 2)
      (logoStdDist2 64) (logoLocal 64 32) (logoLocal 64 31) = none := by
  have hp : Line.proj (⟨-1, 0, 0, 1, bc, oc⟩ : Line Qsqrt2) ⟨0, 0⟩ ⟨-3/32, -1/128⟩ = ⟨29/64, -1/256⟩ := by
    rw [Line.proj]
    apply Qsqrt2.ext2 <;> norm_num [Line.A, Line.B, Line.C, Line.D]
  have hd : Line.distance2 (⟨-1, 0, 0, 1, bc, oc⟩ : Line Qsqrt2) ⟨0, 0⟩ ⟨-3/32, -1/128⟩ = ⟨9801/16384, 35/4096⟩ := by
    rw [Line.distance2_eq, hp,
      if_neg (show ¬ (⟨29/64, -1/256⟩ : Qsqrt2) ≤ 0 by
        rw [Qsqrt2.le_def]; norm_num [Qsqrt2.Nonneg, pow_two]),
      if_neg (show ¬ (1 : Qsqrt2) ≤ ⟨29/64, -1/256⟩ by
        rw [Qsqrt2.le_def]; norm_num [Qsqrt2.Nonneg, pow_two])]
    apply Qsqrt2.ext2 <;> norm_num [Line.A, Line.B, pow_two]
  rw [loc64_32, loc64_31, u2_64, bd2_64t2, sd2_64, lineClaim_def, hd,
    if_neg (show ¬ (⟨9801/16384, 35/4096⟩ : Qsqrt2) * ⟨598016/5041, -98304/5041⟩ ≤ ⟨104004/5041, -66816/5041⟩ by
      rw [Qsqrt2.le_def]; norm_num [Qsqrt2.Nonneg, pow_two]),
    if_neg (show ¬ (⟨9801/16384, 35/4096⟩ : Qsqrt2) * ⟨598016/5041, -98304/5041⟩ ≤ ⟨74752/5041, -12288/5041⟩ by
      rw [Qsqrt2.le_def]; norm_num [Qsqrt2.Nonneg, pow_two])]

theorem lc6_l4 (bc oc : Color) :
    lineClaim (⟨1, 0, 0, -1, bc, oc⟩ : Line Qsqrt2) ((logoUnit 64) ^ 2) (logoBodyDist2 64 2)
      (logoStdDist2 64) (logoLocal 64 32) (logoLocal 64 31) = none := by
  have hp : Line.proj (⟨1, 0, 0, -1, bc, oc⟩ : Line Qsqrt2) ⟨0, 0⟩ ⟨-3/32, -1/128⟩ = ⟨35/64, 1/256⟩ := by
    rw [Line.proj]
    apply Qsqrt2.ext2 <;> norm_num [Line.A, Line.B, Line.C, Line.D]
  have hd : Line.distance2 (⟨1, 0, 0, -1, bc, oc⟩ : Line Qsqrt2) ⟨0, 0⟩ ⟨-3/32, -1/128⟩ = ⟨6729/16384, -29/4096⟩ := by
    rw [Line.distance2_eq, hp,
      if_neg (show ¬ (⟨35/64, 1/256⟩ : Qsqrt2) ≤ 0 by
        rw [Qsqrt2.le_def]; norm_num [Qsqrt2.Nonneg, pow_two]),
      if_neg (show ¬ (1 : Qsqrt2) ≤ ⟨35/64, 1/256⟩ by
        rw [Qsqrt2.le_def]; norm_num [Qsqrt2.Nonneg, pow_two])]
    apply Qsqrt2.ext2 <;> norm_num [Line.A, Line.B, pow_two]
  rw [loc64_32, loc64_31, u2_64, bd2_64t2, sd2_64, lineClaim_def, hd,
    if_neg (show ¬ (⟨6729/16384, -29/4096⟩ : Qsqrt2) * ⟨598016/5041, -98304/5041⟩ ≤ ⟨104004/5041, -66816/5041⟩ by
      rw [Qsqrt2.le_def]; norm_num [Qsqrt2.Nonneg, pow_two]),
    if_neg (show ¬ (⟨6729/16384, -29/4096⟩ : Qsqrt2) * ⟨598016/5041, -98304/5041⟩ ≤ ⟨74752/5041, -12288/5041⟩ by
      rw [Qsqrt2.le_def]; norm_num [Qsqrt2.Nonneg, pow_two])]

theorem lc6_l5 (bc oc : Color) :
    lineClaim (⟨3, 0, -3, 0, bc, oc⟩ : Line Qsqrt2) ((logoUnit 64) ^ 2) (logoBodyDist2 64 2)
      (logoStdDist2 64) (logoLocal 64 32) (logoLocal 64 31) = some bc := by
  have hp : Line.proj (⟨3, 0, -3, 0, bc, oc⟩ : Line Qsqrt2) ⟨0, 0⟩ ⟨-3/32, -1/128⟩ = ⟨1/2, 0⟩ := by
    rw [Line.proj]
    apply Qsqrt2.ext2 <;> norm_num [Line.A, Line.B, Line.C, Line.D]
  have hd : Line.distance2 (⟨3, 0, -3, 0, bc, oc⟩ : Line Qsqrt2) ⟨0, 0⟩ ⟨-3/32, -1/128⟩ = ⟨73/8192, 3/2048⟩ := by
    rw [Line.distance2_eq, hp,
      if_neg (show ¬ (⟨1/2, 0⟩ : Qsqrt2) ≤ 0 by
        rw [Qsqrt2.le_def]; norm_num [Qsqrt2.Nonneg, pow_two]),
      if_neg (show ¬ (1 : Qsqrt2) ≤ ⟨1/2, 0⟩ by
        rw [Qsqrt2.le_def]; norm_num [Qsqrt2.Nonneg, pow_two])]
    apply Qsqrt2.ext2 <;> norm_num [Line.A, Line.B, pow_two]
  rw [loc64_32, loc64_31, u2_64, bd2_64t2, sd2_64, lineClaim_def, hd,
    if_pos (show (⟨73/8192, 3/2048⟩ : Qsqrt2) * ⟨598016/5041, -98304/5041⟩ ≤ ⟨104004/5041, -66816/5041⟩ by
      rw [Qsqrt2.le_def]; norm_num [Qsqrt2.Nonneg, pow_two])]

theorem lc8_l1_5_31 (bc oc : Color) :
    lineClaim (⟨-3, 0, 0, 3, bc, oc⟩ : Line Qsqrt2) ((logoUnit 64) ^ 2) (logoBodyDist2 64 2)
      (logoStdDist2 64) (logoLocal 64 5) (logoLocal 64 31) = some oc := by
  have hp : Line.proj (⟨-3, 0, 0, 3, bc, oc⟩ : Line Qsqrt2) ⟨-81/32, -27/128⟩ ⟨-3/32, -1/128⟩ = ⟨1/16, -7/192⟩ := by
    rw [Line.proj]
    apply Qsqrt2.ext2 <;> norm_num [Line.A, Line.B, Line.C, Line.D]
  have hd : Line.distance2 (⟨-3, 0, 0, 3, bc, oc⟩ : Line Qsqrt2) ⟨-81/32, -27/128⟩ ⟨-3/32, -1/128⟩ = ⟨817/4096, -117/1024⟩ := by
    rw [Line.distance2_eq, hp,
      if_neg (show ¬ (⟨1/16, -7/192⟩ : Qsqrt2) ≤ 0 by
        rw [Qsqrt2.le_def]; norm_num [Qsqrt2.Nonneg, pow_two]),
      if_neg (show ¬ (1 : Qsqrt2) ≤ ⟨1/16, -7/192⟩ by
        rw [Qsqrt2.le_def]; norm_num [Qsqrt2.Nonneg, pow_two])]
    apply Qsqrt2.ext2 <;> norm_num [Line.A, Line.B, pow_two]
  rw [loc64_5, loc64_31, u2_64, bd2_64t2, sd2_64, lineClaim_def, hd,
    if_neg (show ¬ (⟨817/4096, -117/1024⟩ : Qsqrt2) * ⟨598016/5041, -98304/5041⟩ ≤ ⟨104004/5041, -66816/5041⟩ by
      rw [Qsqrt2.le_def]; norm_num [Qsqrt2.Nonneg, pow_two]),
    if_pos (show (⟨817/4096, -117/1024⟩ : Qsqrt2) * ⟨598016/5041, -98304/5041⟩ ≤ ⟨74752/5041, -12288/5041⟩ by
      rw [Qsqrt2.le_def]; norm_num [Qsqrt2.Nonneg, pow_two])]

theorem lc8_l1_32_5 (bc oc : Color) :
    lineClaim (⟨-3, 0, 0, 3, bc, oc⟩ : Line Qsqrt2) ((logoUnit 64) ^ 2) (logoBodyDist2 64 2)
      (logoStdDist2 64) (logoLocal 64 32) (logoLocal 64 5) = none := by
  have hp : Line.proj (⟨-3, 0, 0, 3, bc, oc⟩ : Line Qsqrt2) ⟨0, 0⟩ ⟨-81/32, -27/128⟩ = ⟨5/64, -9/256⟩ := by
    rw [Line.proj]
    apply Qsqrt2.ext2 <;> norm_num [Line.A, Line.B, Line.C, Line.D]
  have hd : Line.distance2 (⟨-3, 0, 0, 3, bc, oc⟩ : Line Qsqrt2) ⟨0, 0⟩ ⟨-81/32, -27/128⟩ = ⟨251361/16384, 4779/4096⟩ := by
    rw [Line.distance2_eq, hp,
      if_neg (show ¬ (⟨5/64, -9/256⟩ : Qsqrt2) ≤ 0 by
        rw [Qsqrt2.le_def]; norm_num [Qsqrt2.Nonneg, pow_two]),
      if_neg (show ¬ (1 : Qsqrt2) ≤ ⟨5/64, -9/256⟩ by
        rw [Qsqrt2.le_def]; norm_num [Qsqrt2.Nonneg, pow_two])]
    apply Qsqrt2.ext2 <;> norm_num [Line.A, Line.B, pow_two]
  rw [loc64_32, loc64_5, u2_64, bd2_64t2, sd2_64, lineClaim_def, hd,
    if_neg (show ¬ (⟨251361/16384, 4779/4096⟩ : Qsqrt2) * ⟨598016/5041, -98304/5041⟩ ≤ ⟨104004/5041, -66816/5041⟩ by
      rw [Qsqrt2.le_def]; norm_num [Qsqrt2.Nonneg, pow_two]),
    if_neg (show ¬ (⟨251361/16384, 4779/4096⟩ : Qsqrt2) * ⟨598016/5041, -98304/5041⟩ ≤ ⟨74752/5041, -12288/5041⟩ by
      rw [Qsqrt2.le_def]; norm_num [Qsqrt2.Nonneg, pow_two])]

theorem lc8_l2_32_5 (bc oc : Color) :
    lineClaim (⟨3, 0, 0, -3, bc, oc⟩ : Line Qsqrt2) ((logoUnit 64) ^ 2) (logoBodyDist2 64 2)
      (logoStdDist2 64) (logoLocal 64 32) (logoLocal 64 5) = some bc := by
  have hp : Line.proj (⟨3, 0, 0, -3, bc, oc⟩ : Line Qsqrt2) ⟨0, 0⟩ ⟨-81/32, -27/128⟩ = ⟨59/64, 9/256⟩ := by
    rw [Line.proj]
    apply Qsqrt2.ext2 <;> norm_num [Line.A, Line.B, Line.C, Line.D]
  have hd : Line.distance2 (⟨3, 0, 0, -3, bc, oc⟩ : Line Qsqrt2) ⟨0, 0⟩ ⟨-81/32, -27/128⟩ = ⟨2529/16384, -405/4096⟩ := by
    rw [Line.distance2_eq, hp,
      if_neg (show ¬ (⟨59/64, 9/256⟩ : Qsqrt2) ≤ 0 by
        rw [Qsqrt2.le_def]; norm_num [Qsqrt2.Nonneg, pow_two]),
      if_neg (show ¬ (1 : Qsqrt2) ≤ ⟨59/64, 9/256⟩ by
        rw [Qsqrt2.le_def]; norm_num [Qsqrt2.Nonneg, pow_two])]
    apply Qsqrt2.ext2 <;> norm_num [Line.A, Line.B, pow_two]
  rw [loc64_32, loc64_5, u2_64, bd2_64t2, sd2_64, lineClaim_def, hd,
    if_pos (show (⟨2529/16384, -405/4096⟩ : Qsqrt2) * ⟨598016/5041, -98304/5041⟩ ≤ ⟨104004/5041, -66816/5041⟩ by
      rw [Qsqrt2.le_def]; norm_num [Qsqrt2.Nonneg, pow_two])]

/-- cfgA realizes concrete scenario A of the spec: 64 by 64 canvas, no round
backdrop, logo size ratio one, default outline thickness 2, background
(0,0,0,255) and single line body color (255,0,0,255); the remaining colors
are arbitrary distinct values. -/
def cfgA : Config :=
  init 64 64 false 1 1 2 (0, 0, 0, 255) (10, 10, 10, 255) (20, 20, 20, 255)
    (30, 30, 30, 255) (40, 40, 40, 255) (255, 0, 0, 255) (50, 50, 50, 255)
    (60, 60, 60, 255) (70, 70, 70, 255)

theorem cfgA_logoSize : cfgA.logoSize = 64 := by
  norm_num [Config.logoSize, Config.minWH, cfgA, init, qtrunc]

theorem cfgA_logoStartX : cfgA.logoStartX = 0 := by
  rw [Config.logoStartX, cfgA_logoSize]
  norm_num [cfgA, init]

theorem cfgA_logoStartY : cfgA.logoStartY = 0 := by
  rw [Config.logoStartY, cfgA_logoSize]
  norm_num [cfgA, init]

theorem cfgA_afterCircle (x y : ℤ) : cfgA.afterCircle x y = (0, 0, 0, 255) := rfl

/-- cfgB is a 40 by 40 canvas with the round backdrop on, both size ratios
one, default outline thickness 2, black background and circle outline color
(9,9,9,255). -/
def cfgB : Config :=
  init 40 40 true 1 1 2 (0, 0, 0, 255) (1, 1, 1, 255) (2, 2, 2, 255)
    (3, 3, 3, 255) (4, 4, 4, 255) (5, 5, 5, 255) (6, 6, 6, 255)
    (8, 8, 8, 255) (9, 9, 9, 255)

theorem cfgB_logoSize : cfgB.logoSize = 40 := by
  norm_num [Config.logoSize, Config.minWH, cfgB, init, qtrunc]

theorem cfgB_logoStartX : cfgB.logoStartX = 0 := by
  rw [Config.logoStartX, cfgB_logoSize]
  norm_num [cfgB, init]

theorem cfgB_logoStartY : cfgB.logoStartY = 0 := by
  rw [Config.logoStartY, cfgB_logoSize]
  norm_num [cfgB, init]

theorem cfgB_circleRadius : cfgB.circleRadius = 20 := by
  norm_num [Config.circleRadius, Config.minWH, cfgB, init]

theorem cfgB_circleStartX : cfgB.circleStartX = 0 := by
  rw [Config.circleStartX, cfgB_circleRadius]
  norm_num [cfgB, init]

theorem cfgB_circleStartY : cfgB.circleStartY = 0 := by
  rw [Config.circleStartY, cfgB_circleRadius]
  norm_num [cfgB, init]

/-- cfgC is a 64 by 64 canvas with no backdrop and pairwise distinct glyph
colors, used to exhibit the actual orientation of the glyph write-back. -/
def cfgC : Config :=
  init 64 64 false 1 1 2 (0, 0, 0, 255) (110, 0, 0, 255) (120, 0, 0, 255)
    (130, 0, 0, 255) (140, 0, 0, 255) (150, 0, 0, 255) (160, 0, 0, 255)
    (170, 0, 0, 255) (180, 0, 0, 255)

theorem cfgC_logoSize : cfgC.logoSize = 64 := by
  norm_num [Config.logoSize, Config.minWH, cfgC, init, qtrunc]

theorem cfgC_logoStartX : cfgC.logoStartX = 0 := by
  rw [Config.logoStartX, cfgC_logoSize]
  norm_num [cfgC, init]

theorem cfgC_logoStartY : cfgC.logoStartY = 0 := by
  rw [Config.logoStartY, cfgC_logoSize]
  norm_num [cfgC, init]

theorem cfgC_afterCircle (x y : ℤ) : cfgC.afterCircle x y = (0, 0, 0, 255) := rfl

theorem tensorB_33_35 : cfgB.logoTensor 33 35 = cfgB.circle_outline_color := by
  rw [logoTensor_def, cfgB_logoSize, logoPixel_def,
    if_neg (fun hp => (cullPass_iff_not_skip standardDistance sqrt2SD
      (logoLocal 40 33) (logoLocal 40 35)).mp hp skip40_33_35),
    cfgB_logoStartX, cfgB_logoStartY]
  norm_num
  rw [afterCircle_def, cfgB_circleStartX, cfgB_circleStartY, cfgB_circleRadius,
    if_pos ⟨rfl, by decide, by decide, by decide, by decide⟩,
    show cfgB.outline_thickness = 2 from rfl]
  norm_num
  rw [circlePixel_def, if_neg (by norm_num), if_pos (by norm_num)]

theorem tensorC_5_31 : cfgC.logoTensor 5 31 = cfgC.outside_line_outline_color := by
  rw [logoTensor_def, cfgC_logoSize, show cfgC.outline_thickness = 2 from rfl,
    logoPixel_def, if_pos pass64_5_31, logoLines_eq,
    classifyLines_cons_some _ _ _ _ _ _ _ _ (lc8_l1_5_31 _ _)]

theorem tensorC_32_5 : cfgC.logoTensor 32 5 = cfgC.outside_line_body_color := by
  rw [logoTensor_def, cfgC_logoSize, show cfgC.outline_thickness = 2 from rfl,
    logoPixel_def, if_pos pass64_32_5, logoLines_eq,
    classifyLines_cons_none _ _ _ _ _ _ _ (lc8_l1_32_5 _ _),
    classifyLines_cons_some _ _ _ _ _ _ _ _ (lc8_l2_32_5 _ _)]

/-- Claim C6: rendering the 64 by 64 scenario with logo size ratio one,
background (0,0,0,255) and single line body color (255,0,0,255) paints the
canvas center pixel, taken as image position (32, 32), with the single line
body color, and leaves all four corner pixels at the background color. -/
theorem C6_render :
    cfgA.single_line_body_color = (255, 0, 0, 255) ∧
    cfgA.background_color = (0, 0, 0, 255) ∧
    cfgA.drawImage 32 32 = (255, 0, 0, 255) ∧
    cfgA.drawImage 0 0 = (0, 0, 0, 255) ∧
    cfgA.drawImage 0 63 = (0, 0, 0, 255) ∧
    cfgA.drawImage 63 0 = (0, 0, 0, 255) ∧
    cfgA.drawImage 63 63 = (0, 0, 0, 255) := by
  refine ⟨rfl, rfl, ?_, ?_, ?_, ?_, ?_⟩
  · show cfgA.drawValue 32 32 = (255, 0, 0, 255)
    rw [drawValue_def, cfgA_logoStartX, cfgA_logoStartY, cfgA_logoSize,
      if_pos ⟨by decide, by decide, by decide, by decide⟩]
    norm_num
    rw [logoTensor_def, cfgA_logoSize, show cfgA.outline_thickness = 2 from rfl,
      logoPixel_def, if_pos pass64_32_31, logoLines_eq,
      classifyLines_cons_none _ _ _ _ _ _ _ (lc6_l1 _ _),
      classifyLines_cons_none _ _ _ _ _ _ _ (lc6_l2 _ _),
      classifyLines_cons_none _ _ _ _ _ _ _ (lc6_l3 _ _),
      classifyLines_cons_none _ _ _ _ _ _ _ (lc6_l4 _ _),
      classifyLines_cons_some _ _ _ _ _ _ _ _ (lc6_l5 _ _)]
    rfl
  · show cfgA.drawValue 0 0 = (0, 0, 0, 255)
    rw [drawValue_def, cfgA_logoStartX, cfgA_logoStartY, cfgA_logoSize,
      if_pos ⟨by decide, by decide, by decide, by decide⟩]
    norm_num
    rw [logoTensor_def, cfgA_logoSize, logoPixel_def,
      if_neg (fun hp => (cullPass_iff_not_skip standardDistance sqrt2SD
        (logoLocal 64 0) (logoLocal 64 63)).mp hp skip64_0_63)]
    exact cfgA_afterCircle _ _
  · show cfgA.drawValue 63 0 = (0, 0, 0, 255)
    rw [drawValue_def, cfgA_logoStartX, cfgA_logoStartY, cfgA_logoSize,
      if_pos ⟨by decide, by decide, by decide, by decide⟩]
    norm_num
    rw [logoTensor_def, cfgA_logoSize, logoPixel_def,
      if_neg (fun hp => (cullPass_iff_not_skip standardDistance sqrt2SD
        (logoLocal 64 0) (logoLocal 64 0)).mp hp skip64_0_0c)]
    exact cfgA_afterCircle _ _
  · show cfgA.drawValue 0 63 = (0, 0, 0, 255)
    rw [drawValue_def, cfgA_logoStartX, cfgA_logoStartY, cfgA_logoSize,
      if_pos ⟨by decide, by decide, by decide, by decide⟩]
    norm_num
    rw [logoTensor_def, cfgA_logoSize, logoPixel_def,
      if_neg (fun hp => (cullPass_iff_not_skip standardDistance sqrt2SD
        (logoLocal 64 63) (logoLocal 64 63)).mp hp skip64_63_63)]
    exact cfgA_afterCircle _ _
  · show cfgA.drawValue 63 63 = (0, 0, 0, 255)
    rw [drawValue_def, cfgA_logoStartX, cfgA_logoStartY, cfgA_logoSize,
      if_pos ⟨by decide, by decide, by decide, by decide⟩]
    norm_num
    rw [logoTensor_def, cfgA_logoSize, logoPixel_def,
      if_neg (fun hp => (cullPass_iff_not_skip standardDistance sqrt2SD
        (logoLocal 64 63) (logoLocal 64 0)).mp hp skip64_63_0)]
    exact cfgA_afterCircle _ _

/-- Claim C7 as amended: a pixel keeps exactly the configured background
color provided the backdrop stage leaves it at the background there, and it
is either outside the glyph sub-region, or its glyph source pixel (the one
the transpose and flip write-back copies from) is culled and itself sits on
background after the backdrop stage.  The claim as frozen asks this of every
pixel outside the backdrop radius and the glyph envelope; the counterexample
below shows the write-back can import a backdrop-outline color into such a
pixel, so the source-pixel condition here is the amendment. -/
theorem C7_background (c : Config) (row col : ℤ)
    (hbc : c.afterCircle col row = c.background_color)
    (hglyph : ¬ (c.logoStartX ≤ col ∧ col < c.logoStartX + c.logoSize ∧
        c.logoStartY ≤ row ∧ row < c.logoStartY + c.logoSize) ∨
      (cullSkip standardDistance sqrt2SD (logoLocal c.logoSize (row - c.logoStartY))
          (logoLocal c.logoSize (c.logoSize - 1 - (col - c.logoStartX))) ∧
        c.afterCircle (c.logoStartX + (row - c.logoStartY))
          (c.logoStartY + (c.logoSize - 1 - (col - c.logoStartX))) = c.background_color)) :
    c.drawImage row col = c.background_color := by
  show c.drawValue col row = c.background_color
  rw [drawValue_def]
  rcases hglyph with hout | ⟨hsk, hsrc⟩
  · rw [if_neg hout, hbc]
  · by_cases hreg : c.logoStartX ≤ col ∧ col < c.logoStartX + c.logoSize ∧
        c.logoStartY ≤ row ∧ row < c.logoStartY + c.logoSize
    · rw [if_pos hreg, logoTensor_def, logoPixel_def,
        if_neg (fun hp => (cullPass_iff_not_skip standardDistance sqrt2SD
          (logoLocal c.logoSize (row - c.logoStartY))
          (logoLocal c.logoSize (c.logoSize - 1 - (col - c.logoStartX)))).mp hp hsk), hsrc]
    · rw [if_neg hreg, hbc]

/-- Counterexample to claim C7 as stated: in the 40 by 40 round scenario the
image pixel at row 33, column 4 lies strictly outside the backdrop radius
and outside the glyph envelope (its local coordinates are culled), yet the
final image shows the circle outline color there, because the transpose and
flip write-back copies it from source pixel (33, 35), which sits on the
backdrop ring. -/
theorem C7_counterexample :
    cfgB.drawImage 33 4 = cfgB.circle_outline_color ∧
    cfgB.circle_outline_color ≠ cfgB.background_color ∧
    ((4 : ℤ) - (cfgB.circleStartX + cfgB.circleRadius)) ^ 2
        + ((33 : ℤ) - (cfgB.circleStartY + cfgB.circleRadius)) ^ 2
      > cfgB.circleRadius ^ 2 ∧
    cullSkip standardDistance sqrt2SD (logoLocal cfgB.logoSize (4 - cfgB.logoStartX))
      (logoLocal cfgB.logoSize (33 - cfgB.logoStartY)) := by
  refine ⟨?_, by decide, ?_, ?_⟩
  · show cfgB.drawValue 4 33 = cfgB.circle_outline_color
    rw [drawValue_def, cfgB_logoStartX, cfgB_logoStartY, cfgB_logoSize,
      if_pos ⟨by decide, by decide, by decide, by decide⟩]
    norm_num
    exact tensorB_33_35
  · rw [cfgB_circleStartX, cfgB_circleStartY, cfgB_circleRadius]
    norm_num
  · rw [cfgB_logoSize, cfgB_logoStartX, cfgB_logoStartY]
    norm_num
    exact skip40_4_33

/-- Witness for C7: in the round 40 by 40 scenario the image corner (0, 0)
satisfies both amended hypotheses concretely and indeed renders as the
background color. -/
theorem C7_witness : cfgB.drawImage 0 0 = cfgB.background_color :=
  C7_background cfgB 0 0
    (by
      rw [afterCircle_def, cfgB_circleStartX, cfgB_circleStartY, cfgB_circleRadius,
        if_pos ⟨rfl, by decide, by decide, by decide, by decide⟩,
        show cfgB.outline_thickness = 2 from rfl]
      norm_num
      rw [circlePixel_def, if_neg (by norm_num), if_neg (by norm_num)])
    (Or.inr ⟨by
      rw [cfgB_logoSize, cfgB_logoStartX, cfgB_logoStartY]
      norm_num
      exact skip40_0_39, by
      rw [afterCircle_def, cfgB_circleStartX, cfgB_circleStartY, cfgB_circleRadius,
        cfgB_logoSize, cfgB_logoStartX, cfgB_logoStartY,
        if_pos ⟨rfl, by decide, by decide, by decide, by decide⟩,
        show cfgB.outline_thickness = 2 from rfl]
      norm_num
      rw [circlePixel_def, if_neg (by norm_num), if_neg (by norm_num)]⟩)

/-- Claim C8 as amended: the write-back places tensor entry (a, b) at image
row logoStartY + a and image column logoStartX + (logoSize - 1 - b), i.e.
increasing local-frame x moves down the image and increasing local-frame y
moves left, and the final buffer is the working canvas transposed into
row-major top-left-origin order.  The claim as frozen asserts the opposite
orientation (local y down, local x right); the counterexample below
separates the two, so the orientation here is the amendment. -/
theorem C8_layout (c : Config) (a b : ℤ) (h0a : 0 ≤ a) (haS : a < c.logoSize)
    (h0b : 0 ≤ b) (hbS : b < c.logoSize) :
    c.drawImage (c.logoStartY + a) (c.logoStartX + (c.logoSize - 1 - b))
        = c.logoTensor a b ∧
    (∀ row col : ℤ, c.drawImage row col = c.drawValue col row) := by
  refine ⟨?_, fun row col => rfl⟩
  show c.drawValue (c.logoStartX + (c.logoSize - 1 - b)) (c.logoStartY + a) = c.logoTensor a b
  rw [drawValue_def, if_pos ⟨by omega, by omega, by omega, by omega⟩]
  have h1 : c.logoStartY + a - c.logoStartY = a := by ring
  have h2 : c.logoSize - 1 - (c.logoStartX + (c.logoSize - 1 - b) - c.logoStartX) = b := by
    ring
  rw [h1, h2]

/-- Counterexample to claim C8 as stated: under the claimed orientation
(local y down, local x right) the image pixel at row 5, column 32 of the
cfgC scenario would show tensor entry (32, 5), the outside line body color;
the actual image shows the outside line outline color there, coming from
tensor entry (5, 31). -/
theorem C8_counterexample :
    cfgC.drawImage 5 32 = cfgC.outside_line_outline_color ∧
    cfgC.logoTensor 32 5 = cfgC.outside_line_body_color ∧
    cfgC.outside_line_outline_color ≠ cfgC.outside_line_body_color ∧
    cfgC.drawImage 5 32 ≠ cfgC.logoTensor 32 5 := by
  have h1 : cfgC.drawImage 5 32 = cfgC.outside_line_outline_color := by
    show cfgC.drawValue 32 5 = cfgC.outside_line_outline_color
    rw [drawValue_def, cfgC_logoStartX, cfgC_logoStartY, cfgC_logoSize,
      if_pos ⟨by decide, by decide, by decide, by decide⟩]
    norm_num
    exact tensorC_5_31
  refine ⟨h1, tensorC_32_5, by decide, ?_⟩
  rw [h1, tensorC_32_5]
  decide

/-- Witness for C8: the layout equation applied to cfgC at tensor entry
(32, 5). -/
theorem C8_witness :
    cfgC.drawImage (cfgC.logoStartY + 32) (cfgC.logoStartX + (cfgC.logoSize - 1 - 5))
        = cfgC.logoTensor 32 5 ∧
    (∀ row col : ℤ, cfgC.drawImage row col = cfgC.drawValue col row) :=
  C8_layout cfgC 32 5 (by norm_num) (by rw [cfgC_logoSize]; norm_num)
    (by norm_num) (by rw [cfgC_logoSize]; norm_num)

end LogoImage
